import Mathlib

/-!
# FLV carving (`src/file_flv.c`): header recogniser, tag-stream validator, resume scanner

A shallow embedding of the three entry points of `file_flv.c`.

* Machine integers are `Nat` with explicit `% 2^w` where the C arithmetic can wrap.
* A buffer is a `List Nat`; every access goes through `rd`, which checks the index against
  the `buffer_size` the caller passed and faults otherwise (an out-of-range read is
  undefined behaviour in C).
* The `static uint32_t datasize` of `data_check_flv` is module-wide state: it is threaded
  through the model explicitly, next to (not inside) the recovery context.
* Loops run on fuel; running out of fuel is a fault of its own, never a result.
-/

namespace FLV

/-- Outcome of a data check or resume check (`data_check_t` of `filegen.h`). -/
inductive data_check_t
  | DC_CONTINUE
  | DC_STOP
  | DC_ERROR
deriving DecidableEq, Repr

/-- Ways an evaluation of the model can fail to produce a C result. -/
inductive Fault
  | outOfBounds (index : Nat)
  | outOfFuel
deriving DecidableEq, Repr

/-- Result of running a piece of the program: a value, or a fault. -/
inductive Res (α : Type)
  | ok (a : α)
  | fault (f : Fault)
deriving DecidableEq, Repr

/-- Sequencing of faulting computations. -/
def Res.bind {α β : Type} (x : Res α) (f : α → Res β) : Res β :=
  match x with
  | .ok a => f a
  | .fault e => .fault e

instance : Monad Res where
  pure := Res.ok
  bind := Res.bind

/-- Function pointers that `file_flv.c` stores in the recovery context. -/
inductive callback_t
  | NULL
  | data_check_flv
  | resume_check_flv
  | file_check_size
deriving DecidableEq, Repr

/-- The fields of `file_recovery_t` that `file_flv.c` reads or writes.
`file_size` and `calculated_file_size` are `uint64_t`, `blocksize` is `unsigned int`. -/
structure file_recovery_t where
  file_size : Nat
  calculated_file_size : Nat
  blocksize : Nat
  last_flvpacket_unixtimestamp : Nat
  extension : Option String
  data_check : callback_t
  resume_check : callback_t
  file_check : callback_t
deriving DecidableEq, Repr

/-- Modulus of `unsigned int` / `uint32_t` arithmetic, `2^32`. -/
def U32 : Nat := 4294967296

/-- Modulus of `uint64_t` arithmetic, `2^64`. -/
def U64 : Nat := 18446744073709551616

/-- Byte stored at index `i` of the buffer (a list element reduced to `uint8_t`). -/
def byteAt (buffer : List Nat) (i : Nat) : Nat := buffer.getD i 0 % 256

/-- Checked read of `buffer[i]`: the index must be below the supplied `buffer_size`. -/
def rd (buffer : List Nat) (buffer_size : Nat) (i : Nat) : Res Nat :=
  if i < buffer_size then .ok (byteAt buffer i) else .fault (.outOfBounds i)

/-- Modelled from the spec: the `be32` macro of `common.h` (not under src/), the value of a
32-bit field stored big-endian, given its four bytes in memory order. -/
def be32 (b0 b1 b2 b3 : Nat) : Nat :=
  (b0 <<< 24) ||| (b1 <<< 16) ||| (b2 <<< 8) ||| b3

/-- Load of a packed `uint32_t` field at byte offset `i`, passed through `be32`. -/
def rd_be32 (buffer : List Nat) (buffer_size : Nat) (i : Nat) : Res Nat := do
  let b0 ← rd buffer buffer_size i
  let b1 ← rd buffer buffer_size (i + 1)
  let b2 ← rd buffer buffer_size (i + 2)
  let b3 ← rd buffer buffer_size (i + 3)
  pure (be32 b0 b1 b2 b3)

/-- The expression `(x[0]<<16) | (x[1]<<8) | x[2]` over a `uint8_t x[3]` at offset `i`. -/
def rd_u24 (buffer : List Nat) (buffer_size : Nat) (i : Nat) : Res Nat := do
  let b0 ← rd buffer buffer_size i
  let b1 ← rd buffer buffer_size (i + 1)
  let b2 ← rd buffer buffer_size (i + 2)
  pure ((b0 <<< 16) ||| (b1 <<< 8) ||| b2)

/-- The expression
`(tag->timestamp_ext << 24) | (tag->timestamp[0]<<16) | (tag->timestamp[1]<<8) | tag->timestamp[2]`
for the `flv_tag` overlaid at offset `t`, as a 32-bit value. -/
def rd_timestamp (buffer : List Nat) (buffer_size : Nat) (t : Nat) : Res Nat := do
  let e ← rd buffer buffer_size (t + 11)
  let t0 ← rd buffer buffer_size (t + 8)
  let t1 ← rd buffer buffer_size (t + 9)
  let t2 ← rd buffer buffer_size (t + 10)
  pure (((e <<< 24) ||| (t0 <<< 16) ||| (t1 <<< 8) ||| t2) % U32)

/-- Modelled from the spec: the declaration of `last_flvpacket_unixtimestamp` (`filegen.h`) is
not under src/; the field is taken to be as wide as the record timestamp it stores, a 24-bit
value plus an 8-bit extension, so sums over it wrap at `2^32`. -/
def TS : Nat := U32

/-- Modelled from the spec: `reset_file_recovery` (`filegen.c`, not under src/) returns the
context to its freshly-reset state: sizes zero, no extension, no callbacks installed; the block
size, which the caller sets, is kept. -/
def reset_file_recovery (fr : file_recovery_t) : file_recovery_t :=
  { fr with
    file_size := 0
    calculated_file_size := 0
    extension := none
    data_check := .NULL
    resume_check := .NULL
    file_check := .NULL }

/-! ## `header_check_flv` -/

/-- The header recogniser. `reset` stands for `reset_file_recovery`, which is not under src/.
Returns the C return value and the new value of `*file_recovery_new`.
`flv_header` is packed: `type_flags` is byte 4, `data_offset` bytes 5..8. -/
def header_check_flv (reset : file_recovery_t → file_recovery_t)
    (buffer : List Nat) (buffer_size : Nat) (_safe_header_only : Nat)
    (_file_recovery : file_recovery_t) (file_recovery_new : file_recovery_t) :
    Res (Int × file_recovery_t) := do
  let type_flags ← rd buffer buffer_size 4
  if type_flags &&& 0xfa = 0 then
    let data_offset ← rd_be32 buffer buffer_size 5
    if data_offset ≥ 9 then
      let fr := { reset file_recovery_new with extension := some "flv" }
      if fr.blocksize < 15 then
        pure (1, fr)
      else
        pure (1, { fr with
                    calculated_file_size := data_offset
                    resume_check := .resume_check_flv
                    data_check := .data_check_flv
                    file_check := .file_check_size })
    else
      pure (0, file_recovery_new)
  else
    pure (0, file_recovery_new)

/-! ## `data_check_flv` -/

/-- The `while` condition of `data_check_flv`, in `uint64_t` arithmetic. -/
def data_check_guard (buffer_size : Nat) (fr : file_recovery_t) : Prop :=
  (fr.calculated_file_size + buffer_size / 2) % U64 ≥ fr.file_size ∧
  (fr.calculated_file_size + 15) % U64 < (fr.file_size + buffer_size / 2) % U64

instance (buffer_size : Nat) (fr : file_recovery_t) : Decidable (data_check_guard buffer_size fr) := by
  unfold data_check_guard; infer_instance

/-- The index `i = calculated_file_size - file_size + buffer_size/2`, computed in `uint64_t`
and stored in an `unsigned int`. -/
def data_check_index (buffer_size : Nat) (fr : file_recovery_t) : Nat :=
  (fr.calculated_file_size + (U64 - fr.file_size % U64) + buffer_size / 2) % U64 % U32

/-- The test `(tag->info&0xc0)!=0 || datasize==0 || tag->streamID[0]!=0 || tag->streamID[1]!=0
|| tag->streamID[2]!=0` for the tag at offset `i`, operands read left to right as needed. -/
def data_check_stop (buffer : List Nat) (buffer_size : Nat) (i : Nat) (datasize : Nat) : Res Bool := do
  let info ← rd buffer buffer_size (i + 4)
  if info &&& 0xc0 ≠ 0 then pure true
  else if datasize = 0 then pure true
  else
    let s0 ← rd buffer buffer_size (i + 12)
    if s0 ≠ 0 then pure true
    else
      let s1 ← rd buffer buffer_size (i + 13)
      if s1 ≠ 0 then pure true
      else
        let s2 ← rd buffer buffer_size (i + 14)
        pure (decide (s2 ≠ 0))

/-- The loop of `data_check_flv`. `datasize` is the function's `static uint32_t datasize`;
the result carries the outcome, the new value of the static and the new context. -/
def data_check_loop : Nat → Nat → List Nat → Nat → file_recovery_t →
    Res (data_check_t × Nat × file_recovery_t)
  | 0, _, _, _, _ => .fault .outOfFuel
  | fuel + 1, datasize, buffer, buffer_size, fr =>
    if data_check_guard buffer_size fr then do
      let i := data_check_index buffer_size fr
      let prev_tag_size ← rd_be32 buffer buffer_size i
      if (prev_tag_size = 0 ∧ fr.calculated_file_size < buffer_size / 2) ∨
          prev_tag_size = (11 + datasize) % U32 then
        let datasize ← rd_u24 buffer buffer_size (i + 5)
        let stop ← data_check_stop buffer buffer_size i datasize
        if stop then
          pure (.DC_STOP, datasize,
            { fr with calculated_file_size := (fr.calculated_file_size + 4) % U64 })
        else
          let ts ← rd_timestamp buffer buffer_size i
          data_check_loop fuel datasize buffer buffer_size
            { fr with
              last_flvpacket_unixtimestamp := ts % TS
              calculated_file_size :=
                (fr.calculated_file_size + (4 + 11 + datasize) % U32) % U64 }
      else
        pure (.DC_ERROR, datasize, fr)
    else
      pure (.DC_CONTINUE, datasize, fr)

/-- The validator: one call on a window, starting from the static `datasize`.
Fuel: an iteration that does not return moves `calculated_file_size` at least 16 bytes
forward inside a window of `buffer_size` bytes. -/
def data_check_flv (datasize : Nat) (buffer : List Nat) (buffer_size : Nat)
    (file_recovery : file_recovery_t) : Res (data_check_t × Nat × file_recovery_t) :=
  data_check_loop (buffer_size + 1) datasize buffer buffer_size file_recovery

/-! ## `resume_check_flv` -/

/-- The test `buffer[i]==0 && buffer[i+1]==0 && buffer[i+2]==0`, operands read left to right
as needed; `i+1` and `i+2` are `unsigned int` sums. -/
def resume_zeros (buffer : List Nat) (buffer_size : Nat) (i : Nat) : Res Bool := do
  let b0 ← rd buffer buffer_size i
  if b0 ≠ 0 then pure false
  else
    let b1 ← rd buffer buffer_size ((i + 1) % U32)
    if b1 ≠ 0 then pure false
    else
      let b2 ← rd buffer buffer_size ((i + 2) % U32)
      pure (decide (b2 = 0))

/-- Body of the `for` loop of `resume_check_flv` at index `i`: whether the `flv_tag`
overlaid at `&buffer[i-10]` is accepted. `prev_tag_size != 0` is tested on the raw field;
a 32-bit field is nonzero in either byte order exactly when its `be32` value is. -/
def resume_candidate (buffer : List Nat) (buffer_size : Nat) (fr : file_recovery_t) (i : Nat) :
    Res Bool := do
  let z ← resume_zeros buffer buffer_size i
  if z then
    let tag := (i + (U32 - 10)) % U32
    let info ← rd buffer buffer_size (tag + 4)
    if info &&& 0xc0 = 0 then
      let prev_tag_size ← rd_be32 buffer buffer_size tag
      if prev_tag_size ≠ 0 then
        let datasize ← rd_u24 buffer buffer_size (tag + 5)
        let timestamp ← rd_timestamp buffer buffer_size tag
        pure (decide (datasize ≠ 0 ∧ timestamp > fr.last_flvpacket_unixtimestamp ∧
          timestamp ≤ (fr.last_flvpacket_unixtimestamp + 1800000) % TS))
      else pure false
    else pure false
  else pure false

/-- The `for(; i < buffer_size; i+=3)` loop of `resume_check_flv`; `i` is an `unsigned int`. -/
def resume_check_loop : Nat → Nat → List Nat → Nat → file_recovery_t → Res data_check_t
  | 0, _, _, _, _ => .fault .outOfFuel
  | fuel + 1, i, buffer, buffer_size, fr =>
    if i < buffer_size then do
      let found ← resume_candidate buffer buffer_size fr i
      if found then pure .DC_CONTINUE
      else resume_check_loop fuel ((i + 3) % U32) buffer buffer_size fr
    else
      pure .DC_ERROR

/-- The resume scanner. Fuel: `i` starts at 10 and grows by 3 up to `buffer_size`. -/
def resume_check_flv (buffer : List Nat) (buffer_size : Nat) (file_recovery : file_recovery_t) :
    Res data_check_t :=
  resume_check_loop (buffer_size + 1) 10 buffer buffer_size file_recovery

/-! ## Test data -/

/-- A context as the framework hands it to the validator for a first window. -/
def ctx0 (cfs : Nat) : file_recovery_t :=
  { file_size := 0, calculated_file_size := cfs, blocksize := 512,
    last_flvpacket_unixtimestamp := 0, extension := some "flv",
    data_check := .data_check_flv, resume_check := .resume_check_flv,
    file_check := .file_check_size }

/-- A 15-byte back-reference plus tag header: back-reference `prev`, info 0, payload
length `len`, timestamp `ts` (24 bits), extension 0, stream id 0. -/
def mkTag (prev len ts : Nat) : List Nat :=
  [prev / 16777216 % 256, prev / 65536 % 256, prev / 256 % 256, prev % 256, 0,
   len / 65536 % 256, len / 256 % 256, len % 256,
   ts / 65536 % 256, ts / 256 % 256, ts % 256, 0, 0, 0, 0]

/-- A 9-byte FLV header with flags `flags` and header length `hlen`. -/
def mkHeader (flags hlen : Nat) : List Nat :=
  [70, 76, 86, 1, flags, hlen / 16777216 % 256, hlen / 65536 % 256, hlen / 256 % 256, hlen % 256]

/-! ## Pure views of the buffer, used to state the properties -/

/-- The `be32` value of the four bytes at `pos`. -/
def be32At (buffer : List Nat) (pos : Nat) : Nat :=
  be32 (byteAt buffer pos) (byteAt buffer (pos + 1)) (byteAt buffer (pos + 2))
    (byteAt buffer (pos + 3))

/-- The 24-bit big-endian value of the three bytes at `pos`. -/
def u24At (buffer : List Nat) (pos : Nat) : Nat :=
  (byteAt buffer pos <<< 16) ||| (byteAt buffer (pos + 1) <<< 8) ||| byteAt buffer (pos + 2)

/-- The timestamp decoded from the `flv_tag` overlaid at `t`:
extension byte (offset 11) over the three timestamp bytes (offsets 8..10). -/
def timestampAt (buffer : List Nat) (t : Nat) : Nat :=
  ((byteAt buffer (t + 11) <<< 24) ||| (byteAt buffer (t + 8) <<< 16) |||
    (byteAt buffer (t + 9) <<< 8) ||| byteAt buffer (t + 10)) % U32

/-- Whether the tag at `i` with decoded payload length `datasize` takes the stop branch. -/
def stopAt (buffer : List Nat) (i : Nat) (datasize : Nat) : Bool :=
  decide (byteAt buffer (i + 4) &&& 0xc0 ≠ 0 ∨ datasize = 0 ∨ byteAt buffer (i + 12) ≠ 0 ∨
    byteAt buffer (i + 13) ≠ 0 ∨ byteAt buffer (i + 14) ≠ 0)

/-- Whether the back-reference test of `data_check_flv` passes for the tag at `i`. -/
def backrefOk (buffer : List Nat) (buffer_size : Nat) (datasize : Nat) (fr : file_recovery_t)
    (i : Nat) : Prop :=
  (be32At buffer i = 0 ∧ fr.calculated_file_size < buffer_size / 2) ∨
    be32At buffer i = (11 + datasize) % U32

instance (buffer : List Nat) (buffer_size datasize : Nat) (fr : file_recovery_t) (i : Nat) :
    Decidable (backrefOk buffer buffer_size datasize fr i) := by
  unfold backrefOk; infer_instance

/-- None of the sums in the loop condition wraps around `2^64`. -/
def NoOverflow (buffer_size : Nat) (fr : file_recovery_t) : Prop :=
  fr.calculated_file_size + buffer_size / 2 < U64 ∧ fr.calculated_file_size + 15 < U64 ∧
    fr.file_size + buffer_size / 2 < U64

instance (buffer_size : Nat) (fr : file_recovery_t) : Decidable (NoOverflow buffer_size fr) := by
  unfold NoOverflow; infer_instance

/-- Layout of a valid record chain at buffer index `pos`: for each payload length `L` of the
list, a 4-byte back-reference equal to `prev`, an 11-byte tag header with info top bits zero,
payload length `L ≥ 1` and stream id zero, then `L` payload bytes; the next back-reference is
`11 + L`. After the last record: the trailing back-reference followed by bytes whose
payload-length field decodes to 0. -/
def RecordsAt (buffer : List Nat) : List Nat → Nat → Nat → Prop
  | [], pos, prev => be32At buffer pos = prev ∧ u24At buffer (pos + 5) = 0
  | L :: Ls, pos, prev =>
    be32At buffer pos = prev ∧ byteAt buffer (pos + 4) &&& 0xc0 = 0 ∧
      u24At buffer (pos + 5) = L ∧ 1 ≤ L ∧
      byteAt buffer (pos + 12) = 0 ∧ byteAt buffer (pos + 13) = 0 ∧
      byteAt buffer (pos + 14) = 0 ∧
      RecordsAt buffer Ls (pos + 15 + L) (11 + L)

instance RecordsAt.dec (buffer : List Nat) :
    (Ls : List Nat) → (pos prev : Nat) → Decidable (RecordsAt buffer Ls pos prev)
  | [], pos, prev => by unfold RecordsAt; infer_instance
  | L :: Ls, pos, prev => by
    unfold RecordsAt
    have := RecordsAt.dec buffer Ls (pos + 15 + L) (11 + L)
    infer_instance

/-- Bytes taken by the records with payload lengths `Ls`: 4 + 11 + `L` each. -/
def records_length (Ls : List Nat) : Nat := (Ls.map (fun L => 15 + L)).sum

/-- True length of a container: header, records, trailing back-reference. -/
def container_length (H : Nat) (Ls : List Nat) : Nat := H + records_length Ls + 4

/-- The size fields leave room below `2^64` for one window and one maximal record, so that
no sum the call computes wraps around. -/
def SizesFit (buffer_size : Nat) (fr : file_recovery_t) : Prop :=
  fr.calculated_file_size + buffer_size + U32 ≤ U64 ∧ fr.file_size + buffer_size + U32 ≤ U64

instance (buffer_size : Nat) (fr : file_recovery_t) : Decidable (SizesFit buffer_size fr) := by
  unfold SizesFit; infer_instance

/-- One iteration of the loop of `data_check_flv` that accepts a record, on the pure view of
the buffer: the static `datasize` and the context after it, or `none` when the iteration
returns (loop condition false, back-reference refused, or stop branch). -/
def data_check_step (buffer : List Nat) (buffer_size : Nat) (s : Nat × file_recovery_t) :
    Option (Nat × file_recovery_t) :=
  if data_check_guard buffer_size s.2 ∧
      backrefOk buffer buffer_size s.1 s.2 (data_check_index buffer_size s.2) ∧
      stopAt buffer (data_check_index buffer_size s.2)
        (u24At buffer (data_check_index buffer_size s.2 + 5)) = false then
    some (u24At buffer (data_check_index buffer_size s.2 + 5),
      { s.2 with
        last_flvpacket_unixtimestamp :=
          timestampAt buffer (data_check_index buffer_size s.2) % TS
        calculated_file_size :=
          (s.2.calculated_file_size +
            (4 + 11 + u24At buffer (data_check_index buffer_size s.2 + 5)) % U32) % U64 })
  else none

/-- State of the loop after `n` records have been accepted, `none` if the call returns
before that. -/
def data_check_steps (buffer : List Nat) (buffer_size : Nat) :
    Nat → Nat × file_recovery_t → Option (Nat × file_recovery_t)
  | 0, s => some s
  | n + 1, s => (data_check_step buffer buffer_size s).bind (data_check_steps buffer buffer_size n)

/-- Result of an iteration of the loop of `data_check_flv` that returns, on the pure view of
the buffer: DC_CONTINUE when the loop condition is false, DC_ERROR when the back-reference
is refused, DC_STOP (static updated, size advanced by 4) otherwise. -/
def data_check_final (buffer : List Nat) (buffer_size : Nat) (s : Nat × file_recovery_t) :
    data_check_t × Nat × file_recovery_t :=
  if data_check_guard buffer_size s.2 then
    if backrefOk buffer buffer_size s.1 s.2 (data_check_index buffer_size s.2) then
      (.DC_STOP, u24At buffer (data_check_index buffer_size s.2 + 5),
        { s.2 with calculated_file_size := (s.2.calculated_file_size + 4) % U64 })
    else (.DC_ERROR, s.1, s.2)
  else (.DC_CONTINUE, s.1, s.2)

/-- The acceptance condition of the resume scanner in the words of the spec, for scan index
`i`: three zero bytes at `i`, `i+1`, `i+2`, and for the tag header overlaid at `i-10`: info
top two bits zero, nonzero back-reference, nonzero 3-byte payload length, decoded timestamp
strictly above the last record timestamp and at most 1800000 ms (30 minutes) ahead of it. -/
def resumeAccept (buffer : List Nat) (fr : file_recovery_t) (i : Nat) : Prop :=
  byteAt buffer i = 0 ∧ byteAt buffer (i + 1) = 0 ∧ byteAt buffer (i + 2) = 0 ∧
    byteAt buffer (i - 10 + 4) &&& 0xc0 = 0 ∧ be32At buffer (i - 10) ≠ 0 ∧
    u24At buffer (i - 10 + 5) ≠ 0 ∧
    fr.last_flvpacket_unixtimestamp < timestampAt buffer (i - 10) ∧
    timestampAt buffer (i - 10) ≤ fr.last_flvpacket_unixtimestamp + 1800000

instance (buffer : List Nat) (fr : file_recovery_t) (i : Nat) :
    Decidable (resumeAccept buffer fr i) := by
  unfold resumeAccept; infer_instance

/-- Invariant of the loop: the condition is evaluated without wrap-around and the window end
stays clear of `2^64`. -/
def LoopInv (buffer_size : Nat) (fr : file_recovery_t) : Prop :=
  NoOverflow buffer_size fr ∧ fr.file_size + buffer_size + U32 ≤ U64

/-! ## Test windows -/

/-- A one-record container (header length 9, flags audio+video, payload length 1) placed at
index 40 of an 80-byte first window: the window holds the 29 container bytes and exactly the
11 bytes that follow. -/
def exactWindow : List Nat :=
  List.replicate 40 0 ++ mkHeader 5 9 ++ mkTag 0 1 0 ++ [7] ++ mkTag 12 0 0

/-- The spec scenario: header length 9, one record of payload length 100, terminator with
back-reference 111, in a 280-byte first window (one spare byte after the terminator tag). -/
def scenarioWindow : List Nat :=
  List.replicate 140 0 ++ mkHeader 5 9 ++ mkTag 0 100 0 ++ List.replicate 100 7 ++
    mkTag 111 0 0 ++ [0]

/-- Header length 9; a first record of payload length 1; a second record of payload length 2
whose back-reference is 0 instead of 12; a terminator with back-reference 13; in a 120-byte
first window. -/
def zeroBackrefWindow : List Nat :=
  List.replicate 60 0 ++ mkHeader 5 9 ++ mkTag 0 1 0 ++ [7] ++ mkTag 0 2 0 ++ [7, 7] ++
    mkTag 13 0 0 ++ [0, 0, 0]

/-- The spec scenario with a broken chain: header length 9, a record of payload length 100,
then a tag with back-reference 999 where 111 is expected. -/
def brokenChainWindow : List Nat :=
  List.replicate 140 0 ++ mkHeader 5 9 ++ mkTag 0 100 0 ++ List.replicate 100 7 ++
    mkTag 999 0 0 ++ [0]

/-- A context as the framework presents it to `header_check_flv`, with the given block
size and arbitrary leftovers in the other fields. -/
def staleCtx (blocksize : Nat) : file_recovery_t :=
  { file_size := 4096, calculated_file_size := 77, blocksize := blocksize,
    last_flvpacket_unixtimestamp := 5, extension := some "jpg",
    data_check := .NULL, resume_check := .NULL, file_check := .file_check_size }

/-- A 32-byte buffer (two blocks of 16) whose only zero byte is the last one. -/
def lastByteZero : List Nat := List.replicate 31 1 ++ [0]

/-- A 13-byte buffer: a tag with back-reference 12, info 9, payload length 5 and timestamp
bytes 0, 1, 0, followed by zero bytes at indices 11 and 12. -/
def resumeHit : List Nat := [0, 0, 0, 12, 9, 0, 0, 5, 0, 1, 0, 0, 0]

/-- A first window whose candidate (header length 9) starts with a record of payload
length 3 and back-reference 111, followed by a terminator with back-reference 14. -/
def staleWindow : List Nat :=
  List.replicate 140 0 ++ mkHeader 5 9 ++ mkTag 111 3 0 ++ [7, 7, 7] ++ mkTag 14 0 0 ++
    List.replicate 98 0

/-- A first window whose candidate (header length 9) starts with a record of payload
length 3 and back-reference 11, followed by a terminator with back-reference 14. -/
def backref11Window : List Nat :=
  List.replicate 140 0 ++ mkHeader 5 9 ++ mkTag 11 3 0 ++ [7, 7, 7] ++ mkTag 14 0 0 ++
    List.replicate 98 0

/-- The first 64 bytes of a file with header length 40 (9 header bytes and 31 further
bytes), whose first record at offset 40 has back-reference 0 and payload length 3: the
second window of a scan with 32-byte blocks. -/
def longHeaderWindow : List Nat :=
  mkHeader 5 40 ++ List.replicate 31 0 ++ mkTag 0 3 0 ++ [7, 7, 7] ++ List.replicate 6 0

/-- The first window of the same scan: 32 bytes before the file, then its first block. -/
def longHeaderFirstWindow : List Nat :=
  List.replicate 32 0 ++ mkHeader 5 40 ++ List.replicate 23 0

/-- A 16-byte buffer: a tag with back-reference 12, info 9, payload length 5, timestamp
bytes 0, 1, 0, extension 0 and stream id 0, 7, 7, then one more byte. -/
def resumeStreamId : List Nat := [0, 0, 0, 12, 9, 0, 0, 5, 0, 1, 0, 0, 0, 7, 7, 0]

/-- A 120-byte first window: header length 9, one record of payload length 1 whose
timestamp bytes are 0x12, 0x34, 0x56 with extension byte 0xFE, then a terminator with
back-reference 12. -/
def extWindow : List Nat :=
  List.replicate 60 0 ++ mkHeader 5 9 ++
    [0, 0, 0, 0, 9, 0, 0, 1, 0x12, 0x34, 0x56, 0xFE, 0, 0, 0] ++ [7] ++ mkTag 12 0 0 ++
    List.replicate 20 0

/-! ## Basic lemmas -/

@[simp]
theorem Res.ok_bind {α β : Type} (a : α) (f : α → Res β) : (Res.ok a >>= f) = f a := rfl

@[simp]
theorem Res.fault_bind {α β : Type} (e : Fault) (f : α → Res β) :
    ((Res.fault e : Res α) >>= f) = Res.fault e := rfl

@[simp]
theorem Res.pure_eq {α : Type} (a : α) : (pure a : Res α) = Res.ok a := rfl

theorem byteAt_lt (buffer : List Nat) (i : Nat) : byteAt buffer i < 256 := by
  unfold byteAt; omega

theorem rd_ok {buffer : List Nat} {buffer_size i : Nat} (h : i < buffer_size) :
    rd buffer buffer_size i = .ok (byteAt buffer i) := by
  simp [rd, h]

theorem rd_be32_ok {buffer : List Nat} {buffer_size i : Nat} (h : i + 4 ≤ buffer_size) :
    rd_be32 buffer buffer_size i = .ok (be32At buffer i) := by
  have h0 : i < buffer_size := by omega
  have h1 : i + 1 < buffer_size := by omega
  have h2 : i + 2 < buffer_size := by omega
  have h3 : i + 3 < buffer_size := by omega
  simp [rd_be32, be32At, rd_ok h0, rd_ok h1, rd_ok h2, rd_ok h3]

theorem rd_u24_ok {buffer : List Nat} {buffer_size i : Nat} (h : i + 3 ≤ buffer_size) :
    rd_u24 buffer buffer_size i = .ok (u24At buffer i) := by
  have h0 : i < buffer_size := by omega
  have h1 : i + 1 < buffer_size := by omega
  have h2 : i + 2 < buffer_size := by omega
  simp [rd_u24, u24At, rd_ok h0, rd_ok h1, rd_ok h2]

theorem rd_timestamp_ok {buffer : List Nat} {buffer_size t : Nat} (h : t + 12 ≤ buffer_size) :
    rd_timestamp buffer buffer_size t = .ok (timestampAt buffer t) := by
  have h0 : t + 11 < buffer_size := by omega
  have h1 : t + 8 < buffer_size := by omega
  have h2 : t + 9 < buffer_size := by omega
  have h3 : t + 10 < buffer_size := by omega
  simp [rd_timestamp, timestampAt, rd_ok h0, rd_ok h1, rd_ok h2, rd_ok h3]

theorem data_check_stop_ok {buffer : List Nat} {buffer_size i : Nat} (datasize : Nat)
    (h : i + 15 ≤ buffer_size) :
    data_check_stop buffer buffer_size i datasize = .ok (stopAt buffer i datasize) := by
  have h0 : i + 4 < buffer_size := by omega
  have h1 : i + 12 < buffer_size := by omega
  have h2 : i + 13 < buffer_size := by omega
  have h3 : i + 14 < buffer_size := by omega
  simp only [data_check_stop, stopAt, rd_ok h0, rd_ok h1, rd_ok h2, rd_ok h3, Res.ok_bind]
  by_cases c0 : byteAt buffer (i + 4) &&& 0xc0 ≠ 0
  · simp [c0]
  · by_cases c1 : datasize = 0
    · simp [c1]
    · by_cases c2 : byteAt buffer (i + 12) ≠ 0
      · simp [c0, c1, c2]
      · by_cases c3 : byteAt buffer (i + 13) ≠ 0
        · simp [c0, c1, c2, c3]
        · simp [c0, c1, c2, c3]

theorem u24At_lt (buffer : List Nat) (pos : Nat) : u24At buffer pos < 2 ^ 24 := by
  unfold u24At
  have h0 := byteAt_lt buffer pos
  have h1 := byteAt_lt buffer (pos + 1)
  have h2 := byteAt_lt buffer (pos + 2)
  apply Nat.or_lt_two_pow
  · apply Nat.or_lt_two_pow
    · rw [Nat.shiftLeft_eq]; omega
    · rw [Nat.shiftLeft_eq]; omega
  · omega

/-- With no wrap-around, the loop condition is the plain pair of comparisons. -/
theorem data_check_guard_iff {buffer_size : Nat} {fr : file_recovery_t}
    (hno : NoOverflow buffer_size fr) :
    data_check_guard buffer_size fr ↔
      fr.file_size ≤ fr.calculated_file_size + buffer_size / 2 ∧
        fr.calculated_file_size + 15 < fr.file_size + buffer_size / 2 := by
  obtain ⟨h1, h2, h3⟩ := hno
  unfold data_check_guard
  rw [Nat.mod_eq_of_lt h1, Nat.mod_eq_of_lt h2, Nat.mod_eq_of_lt h3]

/-- The 64-bit difference `calculated_file_size - file_size + buffer_size/2` when the loop
condition holds without wrap-around. -/
theorem data_check_index_core {buffer_size : Nat} {fr : file_recovery_t}
    (hno : NoOverflow buffer_size fr) (hg : data_check_guard buffer_size fr) :
    (fr.calculated_file_size + (U64 - fr.file_size % U64) + buffer_size / 2) % U64 =
      fr.calculated_file_size + buffer_size / 2 - fr.file_size := by
  have hg2 := (data_check_guard_iff hno).1 hg
  obtain ⟨h1, h2, h3⟩ := hno
  have e1 : fr.file_size % U64 = fr.file_size := Nat.mod_eq_of_lt (by omega)
  have e2 : fr.calculated_file_size + (U64 - fr.file_size) + buffer_size / 2 =
      (fr.calculated_file_size + buffer_size / 2 - fr.file_size) + U64 := by omega
  rw [e1, e2, Nat.add_mod_right, Nat.mod_eq_of_lt (by omega)]

/-- With no wrap-around, a true loop condition puts the 15-byte tag inside the buffer. -/
theorem data_check_index_bound {buffer_size : Nat} {fr : file_recovery_t}
    (hno : NoOverflow buffer_size fr) (hg : data_check_guard buffer_size fr) :
    data_check_index buffer_size fr + 15 < buffer_size := by
  have hg2 := (data_check_guard_iff hno).1 hg
  unfold data_check_index
  rw [data_check_index_core hno hg]
  have := Nat.mod_le (fr.calculated_file_size + buffer_size / 2 - fr.file_size) U32
  omega

/-- With no wrap-around and a `buffer_size` that fits `unsigned int`, the index is the plain
difference. -/
theorem data_check_index_eq {buffer_size : Nat} {fr : file_recovery_t}
    (hbs : buffer_size < U32)
    (hno : NoOverflow buffer_size fr) (hg : data_check_guard buffer_size fr) :
    data_check_index buffer_size fr =
        fr.calculated_file_size + buffer_size / 2 - fr.file_size := by
  have hg2 := (data_check_guard_iff hno).1 hg
  unfold data_check_index
  rw [data_check_index_core hno hg]
  exact Nat.mod_eq_of_lt (by omega)

/-- One iteration of the loop when the tag lies inside the buffer. -/
theorem data_check_loop_succ (fuel datasize : Nat) (buffer : List Nat) (buffer_size : Nat)
    (fr : file_recovery_t)
    (hb : data_check_guard buffer_size fr → data_check_index buffer_size fr + 15 ≤ buffer_size) :
    data_check_loop (fuel + 1) datasize buffer buffer_size fr =
      if data_check_guard buffer_size fr then
        if backrefOk buffer buffer_size datasize fr (data_check_index buffer_size fr) then
          if stopAt buffer (data_check_index buffer_size fr)
              (u24At buffer (data_check_index buffer_size fr + 5)) then
            .ok (.DC_STOP, u24At buffer (data_check_index buffer_size fr + 5),
              { fr with calculated_file_size := (fr.calculated_file_size + 4) % U64 })
          else
            data_check_loop fuel (u24At buffer (data_check_index buffer_size fr + 5))
              buffer buffer_size
              { fr with
                last_flvpacket_unixtimestamp :=
                  timestampAt buffer (data_check_index buffer_size fr) % TS
                calculated_file_size :=
                  (fr.calculated_file_size +
                    (4 + 11 + u24At buffer (data_check_index buffer_size fr + 5)) % U32) % U64 }
        else .ok (.DC_ERROR, datasize, fr)
      else .ok (.DC_CONTINUE, datasize, fr) := by
  by_cases hg : data_check_guard buffer_size fr
  · have hi := hb hg
    have e1 : rd_be32 buffer buffer_size (data_check_index buffer_size fr) =
        .ok (be32At buffer (data_check_index buffer_size fr)) := rd_be32_ok (by omega)
    have e2 : rd_u24 buffer buffer_size (data_check_index buffer_size fr + 5) =
        .ok (u24At buffer (data_check_index buffer_size fr + 5)) := rd_u24_ok (by omega)
    have e3 : rd_timestamp buffer buffer_size (data_check_index buffer_size fr) =
        .ok (timestampAt buffer (data_check_index buffer_size fr)) := rd_timestamp_ok (by omega)
    simp only [data_check_loop, hg, if_true, e1, e2, e3, data_check_stop_ok _ hi, Res.ok_bind,
      backrefOk]
    split <;> simp
  · simp [data_check_loop, hg]

theorem records_length_cons (L : Nat) (Ls : List Nat) :
    records_length (L :: Ls) = 15 + L + records_length Ls := by
  simp [records_length]

theorem length_le_records_length (Ls : List Nat) : Ls.length ≤ records_length Ls := by
  induction Ls with
  | nil => simp [records_length]
  | cons L Ls ih => rw [records_length_cons, List.length_cons]; omega

/-- The loop walks a valid record chain that lies strictly inside the window and stops on
the terminator, four bytes after the last record. -/
theorem data_check_loop_records (buffer : List Nat) (buffer_size : Nat)
    (hbs : buffer_size < U32) :
    ∀ (Ls : List Nat) (fuel datasize prev : Nat) (fr : file_recovery_t),
      fr.file_size = 0 →
      RecordsAt buffer Ls (buffer_size / 2 + fr.calculated_file_size) prev →
      ((prev = 0 ∧ fr.calculated_file_size < buffer_size / 2) ∨ prev = (11 + datasize) % U32) →
      fr.calculated_file_size + records_length Ls + 15 < buffer_size / 2 →
      Ls.length < fuel →
      ∃ ds fr', data_check_loop fuel datasize buffer buffer_size fr = .ok (.DC_STOP, ds, fr') ∧
        fr'.calculated_file_size = fr.calculated_file_size + records_length Ls + 4 := by
  intro Ls
  induction Ls with
  | nil =>
    intro fuel datasize prev fr hfs hrec hprev hwin hfuel
    obtain ⟨fuel, rfl⟩ : ∃ f, fuel = f + 1 := ⟨fuel - 1, by simp at hfuel; omega⟩
    have hU : buffer_size < 4294967296 := hbs
    have hno : NoOverflow buffer_size fr := by
      unfold NoOverflow U64; rw [hfs]; omega
    have hg : data_check_guard buffer_size fr := by
      rw [data_check_guard_iff hno, hfs]; omega
    have hi : data_check_index buffer_size fr = buffer_size / 2 + fr.calculated_file_size := by
      rw [data_check_index_eq hbs hno hg, hfs]; omega
    obtain ⟨hp, hz⟩ := hrec
    rw [data_check_loop_succ _ _ _ _ _ (fun g => Nat.le_of_lt (data_check_index_bound hno g))]
    have hback : backrefOk buffer buffer_size datasize fr (data_check_index buffer_size fr) := by
      unfold backrefOk; rw [hi, hp]; exact hprev
    have hstop : stopAt buffer (data_check_index buffer_size fr)
        (u24At buffer (data_check_index buffer_size fr + 5)) = true := by
      rw [hi, hz]; simp [stopAt]
    rw [if_pos hg, if_pos hback, if_pos hstop]
    refine ⟨_, _, rfl, ?_⟩
    simp only [records_length, List.map_nil, List.sum_nil]
    unfold U64; omega
  | cons L Ls ih =>
    intro fuel datasize prev fr hfs hrec hprev hwin hfuel
    obtain ⟨fuel, rfl⟩ : ∃ f, fuel = f + 1 := ⟨fuel - 1, by simp at hfuel; omega⟩
    rw [records_length_cons] at hwin
    have hU : buffer_size < 4294967296 := hbs
    have hno : NoOverflow buffer_size fr := by
      unfold NoOverflow U64; rw [hfs]; omega
    have hg : data_check_guard buffer_size fr := by
      rw [data_check_guard_iff hno, hfs]; omega
    have hi : data_check_index buffer_size fr = buffer_size / 2 + fr.calculated_file_size := by
      rw [data_check_index_eq hbs hno hg, hfs]; omega
    obtain ⟨hp, hinfo, hlen, hpos, hs0, hs1, hs2, hrest⟩ := hrec
    rw [data_check_loop_succ _ _ _ _ _ (fun g => Nat.le_of_lt (data_check_index_bound hno g))]
    have hback : backrefOk buffer buffer_size datasize fr (data_check_index buffer_size fr) := by
      unfold backrefOk; rw [hi, hp]; exact hprev
    have hstop : stopAt buffer (data_check_index buffer_size fr)
        (u24At buffer (data_check_index buffer_size fr + 5)) = false := by
      rw [hi, hlen]
      simp [stopAt, hinfo, hs0, hs1, hs2]
      omega
    have hL : L < 2 ^ 24 := by rw [← hlen]; exact u24At_lt _ _
    rw [if_pos hg, if_pos hback, hstop, hi, hlen]
    have hcfs : (fr.calculated_file_size + (4 + 11 + L) % U32) % U64 =
        fr.calculated_file_size + 15 + L := by
      unfold U32 U64; omega
    simp only [Bool.false_eq_true, if_false, hcfs]
    have hrest2 : RecordsAt buffer Ls
        (buffer_size / 2 + (fr.calculated_file_size + 15 + L)) (11 + L) := by
      have e : buffer_size / 2 + (fr.calculated_file_size + 15 + L) =
          buffer_size / 2 + fr.calculated_file_size + 15 + L := by omega
      rw [e]; exact hrest
    have hprev2 : (11 + L = 0 ∧ fr.calculated_file_size + 15 + L < buffer_size / 2) ∨
        11 + L = (11 + L) % U32 := by
      right; unfold U32; omega
    obtain ⟨ds, fr', hrun, hsize⟩ := ih fuel L (11 + L)
      { fr with
        last_flvpacket_unixtimestamp :=
          timestampAt buffer (buffer_size / 2 + fr.calculated_file_size) % TS
        calculated_file_size := fr.calculated_file_size + 15 + L }
      hfs hrest2 hprev2 (by simp only; omega) (by simp at hfuel; omega)
    refine ⟨ds, fr', hrun, ?_⟩
    rw [hsize, records_length_cons]
    simp only
    omega

/-! ## The loop under `SizesFit` -/

theorem LoopInv_of_SizesFit {buffer_size : Nat} {fr : file_recovery_t}
    (h : SizesFit buffer_size fr) : LoopInv buffer_size fr := by
  unfold SizesFit U32 U64 at h
  unfold LoopInv NoOverflow U32 U64
  omega

/-- An accepted record keeps `file_size`, moves `calculated_file_size` forward by
`15 + payload length` (at least 16) and preserves the invariant. -/
theorem data_check_step_spec {buffer : List Nat} {buffer_size : Nat}
    {s s' : Nat × file_recovery_t} (hinv : LoopInv buffer_size s.2)
    (hstep : data_check_step buffer buffer_size s = some s') :
    data_check_guard buffer_size s.2 ∧ s'.2.file_size = s.2.file_size ∧
      s'.2.calculated_file_size = s.2.calculated_file_size + 15 + s'.1 ∧ 1 ≤ s'.1 ∧
      s'.1 < 2 ^ 24 ∧ LoopInv buffer_size s'.2 := by
  unfold data_check_step at hstep
  split at hstep
  · rename_i hc
    obtain ⟨hg, _, hstop⟩ := hc
    have hg2 := (data_check_guard_iff hinv.1).1 hg
    have hL := u24At_lt buffer (data_check_index buffer_size s.2 + 5)
    have hpos : 1 ≤ u24At buffer (data_check_index buffer_size s.2 + 5) := by
      simp [stopAt] at hstop
      omega
    obtain ⟨⟨h1, h2, h3⟩, h4⟩ := hinv
    unfold U64 at h1 h2 h3
    unfold U32 U64 at h4
    have hc : (s.2.calculated_file_size +
        (4 + 11 + u24At buffer (data_check_index buffer_size s.2 + 5)) % U32) % U64 =
        s.2.calculated_file_size + 15 +
          u24At buffer (data_check_index buffer_size s.2 + 5) := by
      unfold U32 U64; omega
    cases hstep
    refine ⟨hg, rfl, hc, hpos, hL, ?_⟩
    unfold LoopInv NoOverflow
    simp only [hc]
    unfold U32 U64
    omega
  · cases hstep

/-- An accepted record costs the loop exactly one unit of fuel. -/
theorem data_check_loop_step (fuel : Nat) {buffer : List Nat} {buffer_size : Nat}
    {s s' : Nat × file_recovery_t} (hinv : LoopInv buffer_size s.2)
    (hstep : data_check_step buffer buffer_size s = some s') :
    data_check_loop (fuel + 1) s.1 buffer buffer_size s.2 =
      data_check_loop fuel s'.1 buffer buffer_size s'.2 := by
  rw [data_check_loop_succ _ _ _ _ _ (fun g => Nat.le_of_lt (data_check_index_bound hinv.1 g))]
  unfold data_check_step at hstep
  split at hstep
  · rename_i hc
    obtain ⟨hg, hback, hstop⟩ := hc
    cases hstep
    rw [if_pos hg, if_pos hback, hstop]
    simp
  · cases hstep

/-- Running the loop from the start is running it from the state reached after `n` accepted
records, with `n` units of fuel less. -/
theorem data_check_loop_steps {buffer : List Nat} {buffer_size : Nat} :
    ∀ (n fuel : Nat) (s s' : Nat × file_recovery_t), LoopInv buffer_size s.2 →
      data_check_steps buffer buffer_size n s = some s' →
      data_check_loop (fuel + n) s.1 buffer buffer_size s.2 =
          data_check_loop fuel s'.1 buffer buffer_size s'.2 ∧
        LoopInv buffer_size s'.2 ∧ s'.2.file_size = s.2.file_size ∧
        s.2.calculated_file_size + 16 * n ≤ s'.2.calculated_file_size ∧
        (1 ≤ n → data_check_guard buffer_size s.2) := by
  intro n
  induction n with
  | zero =>
    intro fuel s s' hinv h
    simp only [data_check_steps, Option.some.injEq] at h
    subst h
    exact ⟨rfl, hinv, rfl, by omega, by omega⟩
  | succ n ih =>
    intro fuel s s' hinv h
    simp only [data_check_steps] at h
    cases hs : data_check_step buffer buffer_size s with
    | none => rw [hs] at h; simp at h
    | some s1 =>
      rw [hs] at h
      simp only [Option.some_bind] at h
      obtain ⟨hg, hfs, hcfs, hpos, _, hinv1⟩ := data_check_step_spec hinv hs
      obtain ⟨hrun, hinv', hfs', hcfs', _⟩ := ih fuel s1 s' hinv1 h
      refine ⟨?_, hinv', by rw [hfs', hfs], by omega, fun _ => hg⟩
      rw [← hrun, ← data_check_loop_step (fuel + n) hinv hs]
      rfl

/-- With enough fuel for the bytes left in the window the loop returns a result:
it neither reads outside the buffer nor runs out of fuel. -/
theorem data_check_loop_total (buffer : List Nat) (buffer_size : Nat) :
    ∀ (fuel datasize : Nat) (fr : file_recovery_t), LoopInv buffer_size fr → 1 ≤ fuel →
      (data_check_guard buffer_size fr →
        fr.file_size + buffer_size / 2 - fr.calculated_file_size < 16 * fuel) →
      ∃ out, data_check_loop fuel datasize buffer buffer_size fr = .ok out := by
  intro fuel
  induction fuel with
  | zero => intro datasize fr _ h; omega
  | succ fuel ih =>
    intro datasize fr hinv _ hm
    cases hs : data_check_step buffer buffer_size (datasize, fr) with
    | none =>
      rw [data_check_loop_succ _ _ _ _ _
        (fun g => Nat.le_of_lt (data_check_index_bound hinv.1 g))]
      unfold data_check_step at hs
      by_cases hg : data_check_guard buffer_size fr
      · by_cases hback : backrefOk buffer buffer_size datasize fr (data_check_index buffer_size fr)
        · cases hstop : stopAt buffer (data_check_index buffer_size fr)
              (u24At buffer (data_check_index buffer_size fr + 5)) with
          | true => rw [if_pos hg, if_pos hback]; simp [hstop]
          | false => simp [hg, hback, hstop] at hs
        · rw [if_pos hg, if_neg hback]; exact ⟨_, rfl⟩
      · rw [if_neg hg]; exact ⟨_, rfl⟩
    | some s1 =>
      have hrun := data_check_loop_step fuel (s := (datasize, fr)) hinv hs
      obtain ⟨hg, hfs, hcfs, hpos, _, hinv1⟩ := data_check_step_spec (s := (datasize, fr)) hinv hs
      have hg2 := (data_check_guard_iff hinv.1).1 hg
      have hm0 := hm hg
      simp only at hrun hfs hcfs hg2 hm0
      rw [hrun]
      apply ih s1.1 s1.2 hinv1 (by omega)
      intro hg1
      have hg3 := (data_check_guard_iff hinv1.1).1 hg1
      omega

/-- Under `SizesFit`, a call of `data_check_flv` returns a result. -/
theorem data_check_flv_total (datasize : Nat) (buffer : List Nat) (buffer_size : Nat)
    (fr : file_recovery_t) (hfit : SizesFit buffer_size fr) :
    ∃ out, data_check_flv datasize buffer buffer_size fr = .ok out := by
  have hinv := LoopInv_of_SizesFit hfit
  apply data_check_loop_total buffer buffer_size (buffer_size + 1) datasize fr hinv (by omega)
  intro hg
  have hg2 := (data_check_guard_iff hinv.1).1 hg
  omega

/-- A call that accepts `n` records and then meets state `s'` behaves from there as a loop
started at `s'` with at least one unit of fuel. -/
theorem data_check_flv_steps {buffer : List Nat} {buffer_size : Nat} {n datasize : Nat}
    {fr : file_recovery_t} {s' : Nat × file_recovery_t} (hfit : SizesFit buffer_size fr)
    (hreach : data_check_steps buffer buffer_size n (datasize, fr) = some s')
    (hg : data_check_guard buffer_size s'.2) :
    ∃ fuel, data_check_flv datasize buffer buffer_size fr =
        data_check_loop (fuel + 1) s'.1 buffer buffer_size s'.2 ∧
      LoopInv buffer_size s'.2 := by
  have hinv := LoopInv_of_SizesFit hfit
  obtain ⟨_, hinv', hfs, hcfs, hg0⟩ :=
    data_check_loop_steps n 0 (datasize, fr) s' hinv hreach
  have hg' := (data_check_guard_iff hinv'.1).1 hg
  have hn : n ≤ buffer_size := by
    by_cases h0 : n = 0
    · omega
    · have hgs := (data_check_guard_iff hinv.1).1 (hg0 (by omega))
      simp only at hfs hcfs hgs
      omega
  refine ⟨buffer_size - n, ?_, hinv'⟩
  have e : buffer_size + 1 = (buffer_size - n + 1) + n := by omega
  unfold data_check_flv
  rw [e]
  exact (data_check_loop_steps n (buffer_size - n + 1) (datasize, fr) s' hinv hreach).1

/-! ## Valid containers (C1, C2) -/

/-- C1 as stated fails when the window holds the container and exactly the 11 following
bytes: all the layout conditions hold, the window has room for container plus 11 bytes, yet
the loop condition `calculated_file_size + 15 < file_size + buffer_size/2` is false at the
terminator and the call returns DC_CONTINUE with the size 4 short of the file length 29. -/
theorem data_check_flv_exact_window_continue :
    exactWindow.length = 80 ∧ (ctx0 9).file_size = 0 ∧ (ctx0 9).calculated_file_size = 9 ∧
      RecordsAt exactWindow [1] (80 / 2 + 9) 0 ∧
      80 / 2 + container_length 9 [1] + 11 ≤ 80 ∧
      container_length 9 [1] = 29 ∧
      data_check_flv 0 exactWindow 80 (ctx0 9) = .ok (.DC_CONTINUE, 1, ctx0 25) := by
  decide

/-- C1 (amended): for a valid container (header length `H ≥ 9`, records with payload lengths
`Ls`, `Ls` non-empty, laid out as `RecordsAt` from offset `H`, first back-reference 0) in a
first window (`file_size = 0`, container at buffer offset `buffer_size/2`,
`calculated_file_size = H`) whose second half holds the container and at least 12 further
bytes (`container_length H Ls + 11 < buffer_size/2`), `data_check_flv` returns DC_STOP with
`calculated_file_size` equal to the true file length, whatever the remembered `datasize`. -/
theorem data_check_flv_valid_container (datasize : Nat) (buffer : List Nat)
    (buffer_size H : Nat) (Ls : List Nat) (fr : file_recovery_t)
    (hbs : buffer_size < U32) (hfs : fr.file_size = 0) (hcfs : fr.calculated_file_size = H)
    (_hH : 9 ≤ H) (_hN : Ls ≠ [])
    (hrec : RecordsAt buffer Ls (buffer_size / 2 + H) 0)
    (hwin : container_length H Ls + 11 < buffer_size / 2) :
    ∃ ds fr', data_check_flv datasize buffer buffer_size fr = .ok (.DC_STOP, ds, fr') ∧
      fr'.calculated_file_size = container_length H Ls := by
  unfold container_length at hwin
  have hlen := length_le_records_length Ls
  obtain ⟨ds, fr', hrun, hsize⟩ := data_check_loop_records buffer buffer_size hbs Ls
    (buffer_size + 1) datasize 0 fr hfs (by rw [hcfs]; exact hrec)
    (Or.inl ⟨rfl, by omega⟩) (by omega) (by omega)
  exact ⟨ds, fr', hrun, by rw [hsize, hcfs]; rfl⟩

/-- The amended C1 at the spec scenario: file length 9 + (15 + 100) + 4 = 128. -/
theorem data_check_flv_valid_container_witness :
    container_length 9 [100] = 128 ∧
      ∃ ds fr', data_check_flv 0 scenarioWindow 280 (ctx0 9) = .ok (.DC_STOP, ds, fr') ∧
        fr'.calculated_file_size = container_length 9 [100] :=
  ⟨by decide, data_check_flv_valid_container 0 scenarioWindow 280 9 [100] (ctx0 9)
    (by decide) rfl rfl (by decide) (by decide) (by decide) (by decide)⟩

/-- C2 as stated fails at its own scenario (`H = 9`, `L = 100`): the call returns DC_STOP,
but the final size is 128 = 9 + (4 + 11 + 100) + 4, not 120 = 9 + 11 + 100. -/
theorem data_check_flv_scenario_size_128 :
    be32At scenarioWindow (140 + 9) = 0 ∧ byteAt scenarioWindow (140 + 9 + 4) = 0 ∧
      u24At scenarioWindow (140 + 9 + 5) = 100 ∧
      be32At scenarioWindow (140 + 9 + 15 + 100) = 111 ∧
      byteAt scenarioWindow (140 + 9 + 15 + 100 + 4) = 0 ∧
      u24At scenarioWindow (140 + 9 + 15 + 100 + 5) = 0 ∧
      data_check_flv 0 scenarioWindow 280 (ctx0 9) = .ok (.DC_STOP, 0, ctx0 128) ∧
      (ctx0 128).calculated_file_size ≠ 9 + 11 + 100 := by
  decide

/-- C2 (amended): in a first window (`file_size = 0`, container at `buffer_size/2`,
`calculated_file_size = H`) that holds both tags and one further byte, a first record with
back-reference 0, info 0x00, payload length `L > 0` and zero stream id, followed by a record
with back-reference `11 + L`, info 0x00 and payload length 0, makes `data_check_flv` return
DC_STOP with the remembered `datasize` 0 and `calculated_file_size = H + (4 + 11 + L) + 4`:
the well-formed record advances the size by 4 + 11 + `L`, the terminator by 4. -/
theorem data_check_flv_record_then_terminator (datasize : Nat) (buffer : List Nat)
    (buffer_size H L : Nat) (fr : file_recovery_t)
    (hbs : buffer_size < U32) (hfs : fr.file_size = 0) (hcfs : fr.calculated_file_size = H)
    (hprev1 : be32At buffer (buffer_size / 2 + H) = 0)
    (hinfo1 : byteAt buffer (buffer_size / 2 + H + 4) = 0)
    (hlen1 : u24At buffer (buffer_size / 2 + H + 5) = L) (hL : 0 < L)
    (hs0 : byteAt buffer (buffer_size / 2 + H + 12) = 0)
    (hs1 : byteAt buffer (buffer_size / 2 + H + 13) = 0)
    (hs2 : byteAt buffer (buffer_size / 2 + H + 14) = 0)
    (hprev2 : be32At buffer (buffer_size / 2 + H + 15 + L) = 11 + L)
    (_hinfo2 : byteAt buffer (buffer_size / 2 + H + 15 + L + 4) = 0)
    (hlen2 : u24At buffer (buffer_size / 2 + H + 15 + L + 5) = 0)
    (hwin : H + (4 + 11 + L) + 15 < buffer_size / 2) :
    ∃ fr', data_check_flv datasize buffer buffer_size fr = .ok (.DC_STOP, 0, fr') ∧
      fr'.calculated_file_size = H + (4 + 11 + L) + 4 := by
  have hU : buffer_size < 4294967296 := hbs
  have hL24 : L < 2 ^ 24 := by rw [← hlen1]; exact u24At_lt _ _
  -- first iteration
  have hno : NoOverflow buffer_size fr := by
    unfold NoOverflow U64; rw [hfs, hcfs]; omega
  have hg : data_check_guard buffer_size fr := by
    rw [data_check_guard_iff hno, hfs, hcfs]; omega
  have hi : data_check_index buffer_size fr = buffer_size / 2 + H := by
    rw [data_check_index_eq hbs hno hg, hfs, hcfs]; omega
  have hback : backrefOk buffer buffer_size datasize fr (data_check_index buffer_size fr) := by
    unfold backrefOk; rw [hi, hprev1, hcfs]; exact Or.inl ⟨rfl, by omega⟩
  have hstop : stopAt buffer (data_check_index buffer_size fr)
      (u24At buffer (data_check_index buffer_size fr + 5)) = false := by
    rw [hi, hlen1]
    simp [stopAt, hinfo1, hs0, hs1, hs2]
    omega
  have hcfs1 : (fr.calculated_file_size + (4 + 11 + L) % U32) % U64 = H + 15 + L := by
    rw [hcfs]; unfold U32 U64; omega
  -- second iteration
  have hfuel : buffer_size + 1 = (buffer_size - 1) + 1 + 1 := by omega
  unfold data_check_flv
  rw [hfuel,
    data_check_loop_succ _ _ _ _ _ (fun g => Nat.le_of_lt (data_check_index_bound hno g)),
    if_pos hg, if_pos hback, hstop, hi, hlen1, hcfs1]
  simp only [Bool.false_eq_true, if_false]
  generalize hfr1 : ({ fr with
      last_flvpacket_unixtimestamp := timestampAt buffer (buffer_size / 2 + H) % TS
      calculated_file_size := H + 15 + L } : file_recovery_t) = fr1
  have hfs1 : fr1.file_size = 0 := by rw [← hfr1]; exact hfs
  have hc1 : fr1.calculated_file_size = H + 15 + L := by rw [← hfr1]
  have hno1 : NoOverflow buffer_size fr1 := by
    unfold NoOverflow U64; rw [hfs1, hc1]; omega
  have hg1 : data_check_guard buffer_size fr1 := by
    rw [data_check_guard_iff hno1, hfs1, hc1]; omega
  have hi1 : data_check_index buffer_size fr1 = buffer_size / 2 + H + 15 + L := by
    rw [data_check_index_eq hbs hno1 hg1, hfs1, hc1]; omega
  have hback1 : backrefOk buffer buffer_size L fr1 (data_check_index buffer_size fr1) := by
    unfold backrefOk; rw [hi1, hprev2]; right; unfold U32; omega
  have hstop1 : stopAt buffer (data_check_index buffer_size fr1)
      (u24At buffer (data_check_index buffer_size fr1 + 5)) = true := by
    rw [hi1, hlen2]; simp [stopAt]
  rw [data_check_loop_succ _ _ _ _ _ (fun g => Nat.le_of_lt (data_check_index_bound hno1 g)),
    if_pos hg1, if_pos hback1, if_pos hstop1, hi1, hlen2]
  refine ⟨_, rfl, ?_⟩
  simp only [hc1]
  unfold U64; omega

/-- The amended C2 at the spec scenario `H = 9`, `L = 100`: final size 128. -/
theorem data_check_flv_record_then_terminator_witness :
    ∃ fr', data_check_flv 0 scenarioWindow 280 (ctx0 9) = .ok (.DC_STOP, 0, fr') ∧
      fr'.calculated_file_size = 9 + (4 + 11 + 100) + 4 :=
  data_check_flv_record_then_terminator 0 scenarioWindow 280 9 100 (ctx0 9)
    (by decide) rfl rfl (by decide) (by decide) (by decide) (by decide) (by decide) (by decide)
    (by decide) (by decide) (by decide) (by decide) (by decide)

/-! ## Back-reference mismatch (C3) -/

/-- C3 as stated fails: the record at offset 25 is the second record of the stream (it is
reached after the first one, of payload length 1, has been accepted), its back-reference 0
differs from 11 + 1, and yet it is accepted because `calculated_file_size < buffer_size/2`:
the call goes on to the terminator and returns DC_STOP at 46, also when it is entered at
that record. -/
theorem data_check_flv_zero_backref_accepted :
    data_check_steps zeroBackrefWindow 120 1 (0, ctx0 9) = some (1, ctx0 25) ∧
      data_check_guard 120 (ctx0 25) ∧
      be32At zeroBackrefWindow (data_check_index 120 (ctx0 25)) = 0 ∧
      be32At zeroBackrefWindow (data_check_index 120 (ctx0 25)) ≠ 11 + 1 ∧
      data_check_flv 0 zeroBackrefWindow 120 (ctx0 9) = .ok (.DC_STOP, 0, ctx0 46) ∧
      data_check_flv 1 zeroBackrefWindow 120 (ctx0 25) = .ok (.DC_STOP, 0, ctx0 46) := by
  decide

/-- C3 (amended): in every call of `data_check_flv` (size fields clear of `2^64`), when the
loop, after accepting `n ≥ 0` records, examines a record (loop condition true) whose
big-endian back-reference differs from 11 + the remembered payload length, and that is not a
zero back-reference met while `calculated_file_size < buffer_size/2`, the call returns
DC_ERROR and leaves `calculated_file_size` (and the whole context) as it was at that
record. -/
theorem data_check_flv_backref_mismatch (datasize : Nat) (buffer : List Nat)
    (buffer_size : Nat) (fr : file_recovery_t) (n : Nat) (s' : Nat × file_recovery_t)
    (hfit : SizesFit buffer_size fr)
    (hreach : data_check_steps buffer buffer_size n (datasize, fr) = some s')
    (hg : data_check_guard buffer_size s'.2)
    (hne : be32At buffer (data_check_index buffer_size s'.2) ≠ (11 + s'.1) % U32)
    (hzero : be32At buffer (data_check_index buffer_size s'.2) = 0 →
      buffer_size / 2 ≤ s'.2.calculated_file_size) :
    data_check_flv datasize buffer buffer_size fr = .ok (.DC_ERROR, s'.1, s'.2) := by
  obtain ⟨fuel, hrun, hinv⟩ := data_check_flv_steps hfit hreach hg
  rw [hrun, data_check_loop_succ _ _ _ _ _
    (fun g => Nat.le_of_lt (data_check_index_bound hinv.1 g)), if_pos hg]
  have hback : ¬ backrefOk buffer buffer_size s'.1 s'.2 (data_check_index buffer_size s'.2) := by
    unfold backrefOk
    rintro (⟨h0, hlt⟩ | h1)
    · have := hzero h0; omega
    · exact hne h1
  rw [if_neg hback]

/-- The amended C3 at the spec scenario: back-reference 999 where 111 was expected, met
after one accepted record, gives DC_ERROR with the size left at 124. -/
theorem data_check_flv_backref_mismatch_witness :
    data_check_flv 0 brokenChainWindow 280 (ctx0 9) = .ok (.DC_ERROR, 100, ctx0 124) :=
  data_check_flv_backref_mismatch 0 brokenChainWindow 280 (ctx0 9) 1 (100, ctx0 124)
    (by decide) (by decide) (by decide) (by decide) (by decide)

/-! ## Header recogniser (C4 to C7) -/

/-- C4: on a buffer that holds the 9-byte header, `header_check_flv` returns 1 if
`(type_flags & 0xfa) == 0` and the big-endian header length at offset 5 is at least 9, and
returns 0 otherwise. -/
theorem header_check_flv_accept_iff (reset : file_recovery_t → file_recovery_t)
    (buffer : List Nat) (buffer_size safe_header_only : Nat)
    (file_recovery file_recovery_new : file_recovery_t) (hbs : 9 ≤ buffer_size) :
    ∃ fr', header_check_flv reset buffer buffer_size safe_header_only file_recovery
        file_recovery_new =
      .ok (if byteAt buffer 4 &&& 0xfa = 0 ∧ 9 ≤ be32At buffer 5 then 1 else 0, fr') := by
  have h4 : rd buffer buffer_size 4 = .ok (byteAt buffer 4) := rd_ok (by omega)
  have h5 : rd_be32 buffer buffer_size 5 = .ok (be32At buffer 5) := rd_be32_ok (by omega)
  simp only [header_check_flv, h4, h5, Res.ok_bind, Res.pure_eq, ge_iff_le]
  by_cases c1 : byteAt buffer 4 &&& 0xfa = 0
  · by_cases c2 : 9 ≤ be32At buffer 5
    · by_cases c3 : (reset file_recovery_new).blocksize < 15
      · simp [c1, c2, c3]
      · simp [c1, c2, c3]
    · simp [c1, c2]
  · simp [c1]

/-- C4 on a header with flags 0x05 and header length 9 (accepted) in a 9-byte buffer. -/
theorem header_check_flv_accept_iff_witness :
    ∃ fr', header_check_flv reset_file_recovery (mkHeader 5 9) 9 0 (staleCtx 512)
        (staleCtx 512) =
      .ok (if byteAt (mkHeader 5 9) 4 &&& 0xfa = 0 ∧ 9 ≤ be32At (mkHeader 5 9) 5 then 1 else 0,
        fr') :=
  header_check_flv_accept_iff reset_file_recovery (mkHeader 5 9) 9 0 (staleCtx 512)
    (staleCtx 512) (by decide)

/-- C5: on a buffer that holds the 9-byte header, a header with a reserved flag bit set or
a header length below 9 makes `header_check_flv` return 0 and leave the new context exactly
as it was. -/
theorem header_check_flv_reject_unchanged (reset : file_recovery_t → file_recovery_t)
    (buffer : List Nat) (buffer_size safe_header_only : Nat)
    (file_recovery file_recovery_new : file_recovery_t) (hbs : 9 ≤ buffer_size)
    (hrej : byteAt buffer 4 &&& 0xfa ≠ 0 ∨ be32At buffer 5 < 9) :
    header_check_flv reset buffer buffer_size safe_header_only file_recovery
        file_recovery_new = .ok (0, file_recovery_new) := by
  have h4 : rd buffer buffer_size 4 = .ok (byteAt buffer 4) := rd_ok (by omega)
  have h5 : rd_be32 buffer buffer_size 5 = .ok (be32At buffer 5) := rd_be32_ok (by omega)
  simp only [header_check_flv, h4, h5, Res.ok_bind, Res.pure_eq, ge_iff_le]
  by_cases c1 : byteAt buffer 4 &&& 0xfa = 0
  · have c2 : ¬ 9 ≤ be32At buffer 5 := by
      rcases hrej with h | h
      · exact absurd c1 h
      · omega
    simp [c1, c2]
  · simp [c1]

/-- C5 on a header with header length 8 and on the stale context. -/
theorem header_check_flv_reject_unchanged_witness :
    header_check_flv reset_file_recovery (mkHeader 5 8) 9 0 (staleCtx 512) (staleCtx 512) =
      .ok (0, staleCtx 512) :=
  header_check_flv_reject_unchanged reset_file_recovery (mkHeader 5 8) 9 0 (staleCtx 512)
    (staleCtx 512) (by decide) (by decide)

/-- C6 as stated fails for a block size below 15: the header with flags 0x00 and header
length 9 is accepted, but the function returns before `calculated_file_size` is assigned,
which stays at the 0 the reset left. -/
theorem header_check_flv_small_block_size_zero :
    byteAt (mkHeader 0 9) 4 = 0 ∧ be32At (mkHeader 0 9) 5 = 9 ∧
      header_check_flv reset_file_recovery (mkHeader 0 9) 9 0 (staleCtx 10) (staleCtx 10) =
        .ok (1, { reset_file_recovery (staleCtx 10) with extension := some "flv" }) ∧
      ({ reset_file_recovery (staleCtx 10) with
          extension := some "flv" } : file_recovery_t).calculated_file_size = 0 := by
  decide

/-- C6 (amended): for every header that `header_check_flv` accepts, if the block size of the
new context (after the reset) is at least 15 then `calculated_file_size` after the call is
the declared big-endian header length; if it is below 15 the header is accepted all the same
and `calculated_file_size` is what the reset left. -/
theorem header_check_flv_calculated_file_size (reset : file_recovery_t → file_recovery_t)
    (buffer : List Nat) (buffer_size safe_header_only : Nat)
    (file_recovery file_recovery_new : file_recovery_t) (hbs : 9 ≤ buffer_size)
    (hflags : byteAt buffer 4 &&& 0xfa = 0) (hlen : 9 ≤ be32At buffer 5) :
    ∃ fr', header_check_flv reset buffer buffer_size safe_header_only file_recovery
        file_recovery_new = .ok (1, fr') ∧
      (15 ≤ (reset file_recovery_new).blocksize →
        fr'.calculated_file_size = be32At buffer 5) ∧
      ((reset file_recovery_new).blocksize < 15 →
        fr'.calculated_file_size = (reset file_recovery_new).calculated_file_size) := by
  have h4 : rd buffer buffer_size 4 = .ok (byteAt buffer 4) := rd_ok (by omega)
  have h5 : rd_be32 buffer buffer_size 5 = .ok (be32At buffer 5) := rd_be32_ok (by omega)
  simp only [header_check_flv, h4, h5, Res.ok_bind, Res.pure_eq, ge_iff_le, hflags, hlen,
    if_true]
  by_cases c3 : (reset file_recovery_new).blocksize < 15
  · rw [if_pos c3]
    exact ⟨_, rfl, fun h => by omega, fun _ => rfl⟩
  · rw [if_neg c3]
    exact ⟨_, rfl, fun _ => rfl, fun h => absurd h c3⟩

/-- The amended C6 at the spec scenario: flags 0x00, header length 9, block size 512. -/
theorem header_check_flv_calculated_file_size_witness :
    ∃ fr', header_check_flv reset_file_recovery (mkHeader 0 9) 9 0 (staleCtx 512)
        (staleCtx 512) = .ok (1, fr') ∧ fr'.calculated_file_size = 9 := by
  obtain ⟨fr', h, h15, _⟩ := header_check_flv_calculated_file_size reset_file_recovery
    (mkHeader 0 9) 9 0 (staleCtx 512) (staleCtx 512) (by decide) (by decide) (by decide)
  exact ⟨fr', h, by rw [h15 (by decide)]; decide⟩

/-- C7: for every structurally acceptable header, `header_check_flv` returns 1; when the
block size of the new context (after the reset) is below 15, `data_check`, `resume_check`
and `file_check` stay as the reset left them; when it is at least 15, `data_check` is
`data_check_flv` and `resume_check` is `resume_check_flv`. -/
theorem header_check_flv_callbacks (reset : file_recovery_t → file_recovery_t)
    (buffer : List Nat) (buffer_size safe_header_only : Nat)
    (file_recovery file_recovery_new : file_recovery_t) (hbs : 9 ≤ buffer_size)
    (hflags : byteAt buffer 4 &&& 0xfa = 0) (hlen : 9 ≤ be32At buffer 5) :
    ∃ fr', header_check_flv reset buffer buffer_size safe_header_only file_recovery
        file_recovery_new = .ok (1, fr') ∧
      ((reset file_recovery_new).blocksize < 15 →
        fr'.data_check = (reset file_recovery_new).data_check ∧
        fr'.resume_check = (reset file_recovery_new).resume_check ∧
        fr'.file_check = (reset file_recovery_new).file_check) ∧
      (15 ≤ (reset file_recovery_new).blocksize →
        fr'.data_check = .data_check_flv ∧ fr'.resume_check = .resume_check_flv) := by
  have h4 : rd buffer buffer_size 4 = .ok (byteAt buffer 4) := rd_ok (by omega)
  have h5 : rd_be32 buffer buffer_size 5 = .ok (be32At buffer 5) := rd_be32_ok (by omega)
  simp only [header_check_flv, h4, h5, Res.ok_bind, Res.pure_eq, ge_iff_le, hflags, hlen,
    if_true]
  by_cases c3 : (reset file_recovery_new).blocksize < 15
  · rw [if_pos c3]
    exact ⟨_, rfl, fun _ => ⟨rfl, rfl, rfl⟩, fun h => by omega⟩
  · rw [if_neg c3]
    exact ⟨_, rfl, fun h => absurd h c3, fun _ => ⟨rfl, rfl⟩⟩

/-- C7 with block size 14: accepted, no validator and no resume scanner installed. -/
theorem header_check_flv_callbacks_witness :
    ∃ fr', header_check_flv reset_file_recovery (mkHeader 5 9) 9 0 (staleCtx 14)
        (staleCtx 14) = .ok (1, fr') ∧
      fr'.data_check = .NULL ∧ fr'.resume_check = .NULL := by
  obtain ⟨fr', h, hsmall, _⟩ := header_check_flv_callbacks reset_file_recovery
    (mkHeader 5 9) 9 0 (staleCtx 14) (staleCtx 14) (by decide) (by decide) (by decide)
  obtain ⟨hd, hr, _⟩ := hsmall (by decide)
  exact ⟨fr', h, by rw [hd]; decide, by rw [hr]; decide⟩

/-! ## Reads of the validator stay inside the buffer (C8) -/

/-- C8: for every buffer, `buffer_size`, remembered `datasize` and context whose size fields
are clear of `2^64`, a call of `data_check_flv` returns a result, that is, no read it makes
falls outside `[0, buffer_size)`; and at every iteration it reaches (after any number `n` of
accepted records) where the loop condition holds, the record offset `i` satisfies
`i + 15 ≤ buffer_size`, so the 15-byte overlay lies inside the buffer. -/
theorem data_check_flv_reads_in_bounds (datasize : Nat) (buffer : List Nat)
    (buffer_size : Nat) (fr : file_recovery_t) (hfit : SizesFit buffer_size fr) :
    (∃ out, data_check_flv datasize buffer buffer_size fr = .ok out) ∧
      ∀ (n : Nat) (s' : Nat × file_recovery_t),
        data_check_steps buffer buffer_size n (datasize, fr) = some s' →
        data_check_guard buffer_size s'.2 →
        data_check_index buffer_size s'.2 + 15 ≤ buffer_size := by
  refine ⟨data_check_flv_total datasize buffer buffer_size fr hfit, ?_⟩
  intro n s' hreach hg
  obtain ⟨_, hinv, _⟩ :=
    data_check_loop_steps n 0 (datasize, fr) s' (LoopInv_of_SizesFit hfit) hreach
  exact Nat.le_of_lt (data_check_index_bound hinv.1 hg)

/-- C8 on the spec scenario window. -/
theorem data_check_flv_reads_in_bounds_witness :
    (∃ out, data_check_flv 0 scenarioWindow 280 (ctx0 9) = .ok out) ∧
      ∀ (n : Nat) (s' : Nat × file_recovery_t),
        data_check_steps scenarioWindow 280 n (0, ctx0 9) = some s' →
        data_check_guard 280 s'.2 →
        data_check_index 280 s'.2 + 15 ≤ 280 :=
  data_check_flv_reads_in_bounds 0 scenarioWindow 280 (ctx0 9) (by decide)

/-! ## Resume scanner (C9, C10) -/

/-- C9 fails on the code: with `buffer_size = 32` the scan reaches `i = 31`, finds
`buffer[31] == 0` and then reads `buffer[i+1]`, index 32, outside the buffer. -/
theorem resume_check_flv_reads_past_buffer :
    lastByteZero.length = 32 ∧
      resume_check_flv lastByteZero 32 (ctx0 9) = .fault (.outOfBounds 32) := by
  decide

theorem rd_eq_ok {buffer : List Nat} {buffer_size i v : Nat}
    (h : rd buffer buffer_size i = .ok v) : v = byteAt buffer i := by
  unfold rd at h
  split at h
  · cases h; rfl
  · cases h

theorem rd_timestamp_eq_ok {buffer : List Nat} {buffer_size t v : Nat}
    (h : rd_timestamp buffer buffer_size t = .ok v) : v = timestampAt buffer t := by
  unfold rd_timestamp at h
  cases h0 : rd buffer buffer_size (t + 11) with
  | fault e => rw [h0] at h; cases h
  | ok e =>
    cases h1 : rd buffer buffer_size (t + 8) with
    | fault e => rw [h0, h1] at h; cases h
    | ok t0 =>
      cases h2 : rd buffer buffer_size (t + 9) with
      | fault e => rw [h0, h1, h2] at h; cases h
      | ok t1 =>
        cases h3 : rd buffer buffer_size (t + 10) with
        | fault e => rw [h0, h1, h2, h3] at h; cases h
        | ok t2 =>
          rw [h0, h1, h2, h3] at h
          simp only [Res.ok_bind, Res.pure_eq, Res.ok.injEq] at h
          rw [rd_eq_ok h0, rd_eq_ok h1, rd_eq_ok h2, rd_eq_ok h3] at h
          rw [← h]; rfl

/-- An accepted candidate has its decoded timestamp inside the window the code tests. -/
theorem resume_candidate_timestamp {buffer : List Nat} {buffer_size i : Nat}
    {fr : file_recovery_t} (h : resume_candidate buffer buffer_size fr i = .ok true) :
    fr.last_flvpacket_unixtimestamp < timestampAt buffer ((i + (U32 - 10)) % U32) ∧
      timestampAt buffer ((i + (U32 - 10)) % U32) ≤
        (fr.last_flvpacket_unixtimestamp + 1800000) % TS := by
  unfold resume_candidate at h
  cases hz : resume_zeros buffer buffer_size i with
  | fault e => rw [hz] at h; cases h
  | ok z =>
    rw [hz] at h
    simp only [Res.ok_bind] at h
    cases z with
    | false => simp at h
    | true =>
      simp only [if_true] at h
      cases hinfo : rd buffer buffer_size ((i + (U32 - 10)) % U32 + 4) with
      | fault e => rw [hinfo] at h; cases h
      | ok info =>
        rw [hinfo] at h
        simp only [Res.ok_bind] at h
        split at h
        · cases hprev : rd_be32 buffer buffer_size ((i + (U32 - 10)) % U32) with
          | fault e => rw [hprev] at h; cases h
          | ok prev =>
            rw [hprev] at h
            simp only [Res.ok_bind] at h
            split at h
            · cases hd : rd_u24 buffer buffer_size ((i + (U32 - 10)) % U32 + 5) with
              | fault e => rw [hd] at h; cases h
              | ok d =>
                cases ht : rd_timestamp buffer buffer_size ((i + (U32 - 10)) % U32) with
                | fault e => rw [hd, ht] at h; cases h
                | ok ts =>
                  rw [hd, ht] at h
                  simp only [Res.ok_bind, Res.pure_eq, Res.ok.injEq, decide_eq_true_eq] at h
                  rw [← rd_timestamp_eq_ok ht]
                  exact ⟨h.2.1, h.2.2⟩
            · simp at h
        · simp at h

/-- A scan that returns DC_CONTINUE does so at an index below `buffer_size` whose candidate
was accepted. -/
theorem resume_check_loop_continue {buffer : List Nat} {buffer_size : Nat}
    {fr : file_recovery_t} :
    ∀ (fuel i : Nat), resume_check_loop fuel i buffer buffer_size fr = .ok .DC_CONTINUE →
      ∃ j, j < buffer_size ∧ resume_candidate buffer buffer_size fr j = .ok true := by
  intro fuel
  induction fuel with
  | zero => intro i h; simp [resume_check_loop] at h
  | succ fuel ih =>
    intro i h
    unfold resume_check_loop at h
    split at h
    · rename_i hi
      cases hc : resume_candidate buffer buffer_size fr i with
      | fault e => rw [hc] at h; cases h
      | ok found =>
        rw [hc] at h
        simp only [Res.ok_bind] at h
        cases found with
        | true => exact ⟨i, hi, hc⟩
        | false =>
          simp only [Bool.false_eq_true, if_false] at h
          exact ih _ h
    · simp at h

/-- C10: whenever `resume_check_flv` returns DC_CONTINUE, there is a scan index `i` below
`buffer_size` whose candidate (the `flv_tag` overlaid at `buffer[i-10]`) was accepted, and
the timestamp `t` decoded from that tag satisfies
`last_flvpacket_unixtimestamp < t ≤ last_flvpacket_unixtimestamp + 1800000`. -/
theorem resume_check_flv_timestamp_window (buffer : List Nat) (buffer_size : Nat)
    (fr : file_recovery_t) (h : resume_check_flv buffer buffer_size fr = .ok .DC_CONTINUE) :
    ∃ i, i < buffer_size ∧ resume_candidate buffer buffer_size fr i = .ok true ∧
      fr.last_flvpacket_unixtimestamp < timestampAt buffer ((i + (U32 - 10)) % U32) ∧
      timestampAt buffer ((i + (U32 - 10)) % U32) ≤
        fr.last_flvpacket_unixtimestamp + 1800000 := by
  obtain ⟨i, hi, hc⟩ := resume_check_loop_continue _ _ h
  obtain ⟨hlo, hhi⟩ := resume_candidate_timestamp hc
  exact ⟨i, hi, hc, hlo, Nat.le_trans hhi (Nat.mod_le _ _)⟩

/-- C10 on a buffer whose candidate at `i = 10` decodes timestamp 256 with last timestamp 0. -/
theorem resume_check_flv_timestamp_window_witness :
    resume_check_flv resumeHit 13 (ctx0 9) = .ok .DC_CONTINUE ∧
      ∃ i, i < 13 ∧ resume_candidate resumeHit 13 (ctx0 9) i = .ok true ∧
        (ctx0 9).last_flvpacket_unixtimestamp <
          timestampAt resumeHit ((i + (U32 - 10)) % U32) ∧
        timestampAt resumeHit ((i + (U32 - 10)) % U32) ≤
          (ctx0 9).last_flvpacket_unixtimestamp + 1800000 :=
  ⟨by decide, resume_check_flv_timestamp_window resumeHit 13 (ctx0 9) (by decide)⟩

/-! ## The remembered payload length (C11, C15) -/

/-- C11 fails on the code: the remembered payload length is the function's `static`, not a
field of the context. A call on one candidate (DC_ERROR after a record of payload length
100) leaves it at 100; the next call, on `staleWindow` with context `ctx0 9`, then returns
DC_STOP at 31, while the same buffer, `buffer_size` and context with the static at its
initial 0 give DC_ERROR at 9. -/
theorem data_check_flv_depends_on_static :
    data_check_flv 0 brokenChainWindow 280 (ctx0 9) = .ok (.DC_ERROR, 100, ctx0 124) ∧
      data_check_flv 100 staleWindow 280 (ctx0 9) = .ok (.DC_STOP, 0, ctx0 31) ∧
      data_check_flv 0 staleWindow 280 (ctx0 9) = .ok (.DC_ERROR, 0, ctx0 9) := by
  decide

/-- C15 as stated fails: for a fresh candidate (`calculated_file_size` = header length 9,
remembered payload length 0) whose first record has back-reference 11, the test
`be32(prev_tag_size) == 11 + datasize` passes; the record is accepted and the call returns
DC_STOP at the terminator instead of DC_ERROR. -/
theorem data_check_flv_first_backref_11_accepted :
    be32At backref11Window (data_check_index 280 (ctx0 9)) = 11 ∧
      data_check_guard 280 (ctx0 9) ∧
      data_check_step backref11Window 280 (0, ctx0 9) = some (3, ctx0 27) ∧
      data_check_flv 0 backref11Window 280 (ctx0 9) = .ok (.DC_STOP, 0, ctx0 31) := by
  decide

/-- C15 (amended): for a freshly recognised candidate (`calculated_file_size` = header
length `H`, remembered payload length 0, size fields clear of `2^64`) whose first record is
examined (loop condition true), a back-reference that is neither 0 nor 11 makes
`data_check_flv` return DC_ERROR, context and remembered payload length unchanged. -/
theorem data_check_flv_first_backref_error (buffer : List Nat) (buffer_size H : Nat)
    (fr : file_recovery_t) (hfit : SizesFit buffer_size fr)
    (_hcfs : fr.calculated_file_size = H) (hg : data_check_guard buffer_size fr)
    (hnz : be32At buffer (data_check_index buffer_size fr) ≠ 0)
    (h11 : be32At buffer (data_check_index buffer_size fr) ≠ 11) :
    data_check_flv 0 buffer buffer_size fr = .ok (.DC_ERROR, 0, fr) := by
  have hinv := LoopInv_of_SizesFit hfit
  have hback : ¬ backrefOk buffer buffer_size 0 fr (data_check_index buffer_size fr) := by
    unfold backrefOk
    rintro (⟨h0, _⟩ | h1)
    · exact hnz h0
    · exact h11 h1
  unfold data_check_flv
  rw [data_check_loop_succ _ _ _ _ _
    (fun g => Nat.le_of_lt (data_check_index_bound hinv.1 g)), if_pos hg, if_neg hback]

/-- The amended C15 on a first record with back-reference 111. -/
theorem data_check_flv_first_backref_error_witness :
    data_check_flv 0 staleWindow 280 (ctx0 9) = .ok (.DC_ERROR, 0, ctx0 9) :=
  data_check_flv_first_backref_error staleWindow 280 9 (ctx0 9) (by decide) rfl (by decide)
    (by decide) (by decide)

/-! ## The first record and the window (C16) -/

/-- C16 as stated fails for a header length of at least `buffer_size/2`: header length 40
is accepted with 32-byte blocks; on the first window the call returns DC_CONTINUE; on the
second window (`file_size = 32`) the first record at offset 40 has back-reference 0, info 0,
payload length 3 and zero stream id, but `calculated_file_size < buffer_size/2` is false and
the call returns DC_ERROR. -/
theorem data_check_flv_long_header_first_record_error :
    (header_check_flv reset_file_recovery longHeaderWindow 64 0 (staleCtx 32) (staleCtx 32) =
        .ok (1, { ctx0 40 with blocksize := 32, last_flvpacket_unixtimestamp := 5 })) ∧
      data_check_flv 0 longHeaderFirstWindow 64 (ctx0 40) = .ok (.DC_CONTINUE, 0, ctx0 40) ∧
      data_check_guard 64 { ctx0 40 with file_size := 32 } ∧
      data_check_index 64 { ctx0 40 with file_size := 32 } = 40 ∧
      be32At longHeaderWindow 40 = 0 ∧ byteAt longHeaderWindow 44 = 0 ∧
      u24At longHeaderWindow 45 = 3 ∧ byteAt longHeaderWindow 52 = 0 ∧
      byteAt longHeaderWindow 53 = 0 ∧ byteAt longHeaderWindow 54 = 0 ∧
      data_check_flv 0 longHeaderWindow 64 { ctx0 40 with file_size := 32 } =
        .ok (.DC_ERROR, 0, { ctx0 40 with file_size := 32 }) := by
  decide

/-! ## The zero bytes matched by the resume scanner (C18) -/

/-- C18 fails on the code: on `resumeStreamId` the scan matches the zero bytes at indices
10, 11, 12 and returns DC_CONTINUE for the tag overlaid at index 0, whose `streamID` field
(struct offset 12, buffer indices 12, 13, 14) is 0, 7, 7. The matched bytes are
`timestamp[2]`, `timestamp_ext` and `streamID[0]` of that tag. -/
theorem resume_check_flv_stream_id_not_checked :
    resume_check_flv resumeStreamId 16 (ctx0 9) = .ok .DC_CONTINUE ∧
      resume_candidate resumeStreamId 16 (ctx0 9) 10 = .ok true ∧
      byteAt resumeStreamId (0 + 12) = 0 ∧ byteAt resumeStreamId (0 + 13) = 7 ∧
      byteAt resumeStreamId (0 + 14) = 7 := by
  decide

/-! ## Results of the loop (C12, C13, C14, C19, C20) -/

/-- An iteration that accepts no record returns `data_check_final`, whatever fuel is left. -/
theorem data_check_loop_final (fuel : Nat) {buffer : List Nat} {buffer_size : Nat}
    {s : Nat × file_recovery_t} (hinv : LoopInv buffer_size s.2)
    (hstep : data_check_step buffer buffer_size s = none) :
    data_check_loop (fuel + 1) s.1 buffer buffer_size s.2 =
      .ok (data_check_final buffer buffer_size s) := by
  rw [data_check_loop_succ _ _ _ _ _ (fun g => Nat.le_of_lt (data_check_index_bound hinv.1 g))]
  unfold data_check_step at hstep
  unfold data_check_final
  by_cases hg : data_check_guard buffer_size s.2
  · by_cases hback : backrefOk buffer buffer_size s.1 s.2 (data_check_index buffer_size s.2)
    · cases hstop : stopAt buffer (data_check_index buffer_size s.2)
          (u24At buffer (data_check_index buffer_size s.2 + 5)) with
      | true => simp [hg, hback]
      | false => simp [hg, hback, hstop] at hstep
    · simp [hg, hback]
  · simp [hg]

/-- A result of the loop is the final iteration at the state reached after some number of
accepted records. -/
theorem data_check_loop_result {buffer : List Nat} {buffer_size : Nat} :
    ∀ (fuel : Nat) (s : Nat × file_recovery_t) (out : data_check_t × Nat × file_recovery_t),
      LoopInv buffer_size s.2 →
      data_check_loop fuel s.1 buffer buffer_size s.2 = .ok out →
      ∃ n s', n < fuel ∧ data_check_steps buffer buffer_size n s = some s' ∧
        data_check_step buffer buffer_size s' = none ∧
        out = data_check_final buffer buffer_size s' := by
  intro fuel
  induction fuel with
  | zero => intro s out _ h; simp [data_check_loop] at h
  | succ fuel ih =>
    intro s out hinv h
    cases hs : data_check_step buffer buffer_size s with
    | none =>
      rw [data_check_loop_final fuel hinv hs] at h
      cases h
      exact ⟨0, s, by omega, rfl, hs, rfl⟩
    | some s1 =>
      rw [data_check_loop_step fuel hinv hs] at h
      obtain ⟨_, _, _, _, _, hinv1⟩ := data_check_step_spec hinv hs
      obtain ⟨n, s', hn, hreach, hnone, hout⟩ := ih s1 out hinv1 h
      refine ⟨n + 1, s', by omega, ?_, hnone, hout⟩
      simp only [data_check_steps, hs, Option.some_bind]
      exact hreach

/-- A result obtained with some fuel is the result with any larger fuel. -/
theorem data_check_loop_fuel_mono {buffer : List Nat} {buffer_size : Nat} :
    ∀ (fuel k : Nat) (s : Nat × file_recovery_t) (out : data_check_t × Nat × file_recovery_t),
      LoopInv buffer_size s.2 →
      data_check_loop fuel s.1 buffer buffer_size s.2 = .ok out →
      data_check_loop (fuel + k) s.1 buffer buffer_size s.2 = .ok out := by
  intro fuel
  induction fuel with
  | zero => intro k s out _ h; simp [data_check_loop] at h
  | succ fuel ih =>
    intro k s out hinv h
    have e : fuel + 1 + k = (fuel + k) + 1 := by omega
    rw [e]
    cases hs : data_check_step buffer buffer_size s with
    | none =>
      rw [data_check_loop_final fuel hinv hs] at h
      rw [data_check_loop_final (fuel + k) hinv hs]
      exact h
    | some s1 =>
      rw [data_check_loop_step fuel hinv hs] at h
      rw [data_check_loop_step (fuel + k) hinv hs]
      obtain ⟨_, _, _, _, _, hinv1⟩ := data_check_step_spec hinv hs
      exact ih k s1 out hinv1 h

/-- The final iteration does not move `calculated_file_size` backwards. -/
theorem data_check_final_cfs {buffer : List Nat} {buffer_size : Nat}
    {s : Nat × file_recovery_t} (hinv : LoopInv buffer_size s.2) :
    s.2.calculated_file_size ≤
      (data_check_final buffer buffer_size s).2.2.calculated_file_size := by
  obtain ⟨⟨_, h2, _⟩, _⟩ := hinv
  unfold U64 at h2
  unfold data_check_final
  split
  · split
    · simp only; unfold U64; omega
    · exact Nat.le_refl _
  · exact Nat.le_refl _

/-- The 32-bit value of four bytes combined with shifts and ors. -/
theorem or_bytes4 (e t0 t1 t2 : Nat) (h0 : t0 < 256) (h1 : t1 < 256) (h2 : t2 < 256) :
    (e <<< 24) ||| (t0 <<< 16) ||| (t1 <<< 8) ||| t2 =
      e * 16777216 + t0 * 65536 + t1 * 256 + t2 := by
  simp only [Nat.shiftLeft_eq]
  have a1 : e * 2 ^ 24 ||| t0 * 2 ^ 16 = e * 16777216 + t0 * 65536 := by
    have := Nat.mul_add_lt_is_or (i := 24) (b := t0 * 2 ^ 16) (by omega) e
    rw [← Nat.mul_comm e (2 ^ 24)] at this
    rw [← this]; omega
  have a2 : (e * 16777216 + t0 * 65536) ||| t1 * 2 ^ 8 =
      e * 16777216 + t0 * 65536 + t1 * 256 := by
    have := Nat.mul_add_lt_is_or (i := 16) (b := t1 * 2 ^ 8) (by omega) (e * 256 + t0)
    have e1 : 2 ^ 16 * (e * 256 + t0) = e * 16777216 + t0 * 65536 := by omega
    rw [e1] at this
    rw [← this]; omega
  have a3 : (e * 16777216 + t0 * 65536 + t1 * 256) ||| t2 =
      e * 16777216 + t0 * 65536 + t1 * 256 + t2 := by
    have := Nat.mul_add_lt_is_or (i := 8) (b := t2) (by omega) (e * 65536 + t0 * 256 + t1)
    have e1 : 2 ^ 8 * (e * 65536 + t0 * 256 + t1) =
        e * 16777216 + t0 * 65536 + t1 * 256 := by omega
    rw [e1] at this
    rw [← this]
  rw [a1, a2, a3]

/-- The stored timestamp is the extension byte over the 24-bit big-endian timestamp. -/
theorem timestampAt_eq (buffer : List Nat) (t : Nat) :
    timestampAt buffer t % TS =
      byteAt buffer (t + 11) * 16777216 + byteAt buffer (t + 8) * 65536 +
        byteAt buffer (t + 9) * 256 + byteAt buffer (t + 10) := by
  have he := byteAt_lt buffer (t + 11)
  have h0 := byteAt_lt buffer (t + 8)
  have h1 := byteAt_lt buffer (t + 9)
  have h2 := byteAt_lt buffer (t + 10)
  unfold timestampAt
  rw [or_bytes4 _ _ _ _ h0 h1 h2]
  unfold TS U32
  omega

/-- A loop that returns DC_CONTINUE returns a state at which the loop condition is false
(no assumption on the sizes). -/
theorem data_check_loop_continue {buffer : List Nat} {buffer_size : Nat} :
    ∀ (fuel datasize : Nat) (fr : file_recovery_t) (ds : Nat) (fr' : file_recovery_t),
      data_check_loop fuel datasize buffer buffer_size fr = .ok (.DC_CONTINUE, ds, fr') →
      ¬ data_check_guard buffer_size fr' := by
  intro fuel
  induction fuel with
  | zero => intro datasize fr ds fr' h; simp [data_check_loop] at h
  | succ fuel ih =>
    intro datasize fr ds fr' h
    unfold data_check_loop at h
    split at h
    · dsimp only at h
      cases h1 : rd_be32 buffer buffer_size (data_check_index buffer_size fr) with
      | fault e => rw [h1] at h; cases h
      | ok prev =>
        rw [h1] at h
        simp only [Res.ok_bind] at h
        split at h
        · cases h2 : rd_u24 buffer buffer_size (data_check_index buffer_size fr + 5) with
          | fault e => rw [h2] at h; cases h
          | ok d =>
            rw [h2] at h
            simp only [Res.ok_bind] at h
            cases h3 : data_check_stop buffer buffer_size (data_check_index buffer_size fr) d with
            | fault e => rw [h3] at h; cases h
            | ok stop =>
              rw [h3] at h
              simp only [Res.ok_bind] at h
              cases stop with
              | true => simp at h
              | false =>
                simp only [Bool.false_eq_true, if_false] at h
                cases h4 : rd_timestamp buffer buffer_size (data_check_index buffer_size fr) with
                | fault e => rw [h4] at h; cases h
                | ok ts =>
                  rw [h4] at h
                  simp only [Res.ok_bind] at h
                  exact ih _ _ _ _ h
        · simp at h
    · rename_i hng
      simp only [Res.pure_eq, Res.ok.injEq, Prod.mk.injEq, true_and] at h
      rw [← h.2]
      exact hng

/-- C12: for every buffer, `buffer_size`, remembered `datasize` and context whose size
fields are clear of `2^64`, a call of `data_check_flv` returns a result, DC_CONTINUE,
DC_STOP or DC_ERROR, whose `calculated_file_size` is at least the value before the call. -/
theorem data_check_flv_calculated_file_size_mono (datasize : Nat) (buffer : List Nat)
    (buffer_size : Nat) (fr : file_recovery_t) (hfit : SizesFit buffer_size fr) :
    ∃ r ds fr', data_check_flv datasize buffer buffer_size fr = .ok (r, ds, fr') ∧
      fr.calculated_file_size ≤ fr'.calculated_file_size := by
  have hinv := LoopInv_of_SizesFit hfit
  obtain ⟨out, hout⟩ := data_check_flv_total datasize buffer buffer_size fr hfit
  obtain ⟨n, s', _, hreach, _, hfinal⟩ :=
    data_check_loop_result (buffer_size + 1) (datasize, fr) out hinv hout
  obtain ⟨_, hinv', _, hcfs, _⟩ := data_check_loop_steps n 0 (datasize, fr) s' hinv hreach
  have hle : s'.2.calculated_file_size ≤
      (data_check_final buffer buffer_size s').2.2.calculated_file_size :=
    data_check_final_cfs hinv'
  refine ⟨out.1, out.2.1, out.2.2, hout, ?_⟩
  rw [hfinal]
  simp only at hcfs
  omega

/-- C12 on the spec scenario window: the size goes from 9 to 128. -/
theorem data_check_flv_calculated_file_size_mono_witness :
    ∃ r ds fr', data_check_flv 0 scenarioWindow 280 (ctx0 9) = .ok (r, ds, fr') ∧
      (ctx0 9).calculated_file_size ≤ fr'.calculated_file_size :=
  data_check_flv_calculated_file_size_mono 0 scenarioWindow 280 (ctx0 9) (by decide)

/-- C13: if a call of `data_check_flv` returns DC_CONTINUE, a second call with the same
buffer and `buffer_size`, the resulting context and the resulting remembered payload length
returns DC_CONTINUE again and leaves the context (`calculated_file_size`, last timestamp,
`file_size`) and the remembered payload length unchanged. -/
theorem data_check_flv_continue_idempotent (datasize : Nat) (buffer : List Nat)
    (buffer_size : Nat) (fr : file_recovery_t) (ds : Nat) (fr' : file_recovery_t)
    (h : data_check_flv datasize buffer buffer_size fr = .ok (.DC_CONTINUE, ds, fr')) :
    data_check_flv ds buffer buffer_size fr' = .ok (.DC_CONTINUE, ds, fr') := by
  have hng := data_check_loop_continue _ _ _ _ _ h
  unfold data_check_flv
  unfold data_check_loop
  rw [if_neg hng]
  rfl

/-- C13 on the exact-fit window: the first call consumes one record and returns
DC_CONTINUE at 25; the second call returns the same. -/
theorem data_check_flv_continue_idempotent_witness :
    data_check_flv 0 exactWindow 80 (ctx0 9) = .ok (.DC_CONTINUE, 1, ctx0 25) ∧
      data_check_flv 1 exactWindow 80 (ctx0 25) = .ok (.DC_CONTINUE, 1, ctx0 25) :=
  ⟨by decide, data_check_flv_continue_idempotent 0 exactWindow 80 (ctx0 9) 1 (ctx0 25)
    (by decide)⟩

/-- C14: in every call of `data_check_flv` (size fields clear of `2^64`), when the loop,
after accepting `n ≥ 0` records, examines a record whose back-reference check passes but
whose info byte has a top-two bit set, or whose payload length is zero, or whose stream id
is not all zero, the call returns DC_STOP with `calculated_file_size` advanced by exactly 4
from its value at that record and the rest of the context, the last timestamp included, as
it was at that record. -/
theorem data_check_flv_malformed_stop (datasize : Nat) (buffer : List Nat)
    (buffer_size : Nat) (fr : file_recovery_t) (n : Nat) (s' : Nat × file_recovery_t)
    (hfit : SizesFit buffer_size fr)
    (hreach : data_check_steps buffer buffer_size n (datasize, fr) = some s')
    (hg : data_check_guard buffer_size s'.2)
    (hback : backrefOk buffer buffer_size s'.1 s'.2 (data_check_index buffer_size s'.2))
    (hbad : byteAt buffer (data_check_index buffer_size s'.2 + 4) &&& 0xc0 ≠ 0 ∨
      u24At buffer (data_check_index buffer_size s'.2 + 5) = 0 ∨
      byteAt buffer (data_check_index buffer_size s'.2 + 12) ≠ 0 ∨
      byteAt buffer (data_check_index buffer_size s'.2 + 13) ≠ 0 ∨
      byteAt buffer (data_check_index buffer_size s'.2 + 14) ≠ 0) :
    data_check_flv datasize buffer buffer_size fr =
      .ok (.DC_STOP, u24At buffer (data_check_index buffer_size s'.2 + 5),
        { s'.2 with calculated_file_size := s'.2.calculated_file_size + 4 }) := by
  obtain ⟨fuel, hrun, hinv⟩ := data_check_flv_steps hfit hreach hg
  have hstop : stopAt buffer (data_check_index buffer_size s'.2)
      (u24At buffer (data_check_index buffer_size s'.2 + 5)) = true := by
    unfold stopAt
    exact decide_eq_true hbad
  have hc : (s'.2.calculated_file_size + 4) % U64 = s'.2.calculated_file_size + 4 := by
    obtain ⟨⟨_, h2, _⟩, _⟩ := hinv
    unfold U64 at h2
    unfold U64; omega
  rw [hrun, data_check_loop_succ _ _ _ _ _
    (fun g => Nat.le_of_lt (data_check_index_bound hinv.1 g)), if_pos hg, if_pos hback,
    if_pos hstop, hc]

/-- C14 at the terminator of the spec scenario, met after one accepted record: DC_STOP at
124 + 4, last timestamp unchanged. -/
theorem data_check_flv_malformed_stop_witness :
    data_check_flv 0 scenarioWindow 280 (ctx0 9) =
      .ok (.DC_STOP, u24At scenarioWindow (data_check_index 280 (ctx0 124) + 5),
        { ctx0 124 with calculated_file_size := (ctx0 124).calculated_file_size + 4 }) :=
  data_check_flv_malformed_stop 0 scenarioWindow 280 (ctx0 9) 1 (100, ctx0 124)
    (by decide) (by decide) (by decide) (by decide) (by decide)

/-- Accepted records compose on the right. -/
theorem data_check_steps_snoc {buffer : List Nat} {buffer_size : Nat} :
    ∀ (n : Nat) (s s' s'' : Nat × file_recovery_t),
      data_check_steps buffer buffer_size n s = some s' →
      data_check_step buffer buffer_size s' = some s'' →
      data_check_steps buffer buffer_size (n + 1) s = some s'' := by
  intro n
  induction n with
  | zero =>
    intro s s' s'' h hs
    simp only [data_check_steps, Option.some.injEq] at h
    subst h
    simp [data_check_steps, hs]
  | succ n ih =>
    intro s s' s'' h hs
    simp only [data_check_steps] at h
    cases h1 : data_check_step buffer buffer_size s with
    | none => rw [h1] at h; simp at h
    | some s1 =>
      rw [h1] at h
      simp only [Option.some_bind] at h
      have := ih s1 s' s'' h hs
      rw [data_check_steps, h1]
      simpa using this

/-- Number of loop bodies entered: when the loop condition holds after `n` accepted
records, `n + 1 ≤ buffer_size / 16`. -/
theorem data_check_steps_bound {buffer : List Nat} {buffer_size : Nat} {n datasize : Nat}
    {fr : file_recovery_t} {s' : Nat × file_recovery_t} (hinv : LoopInv buffer_size fr)
    (hreach : data_check_steps buffer buffer_size n (datasize, fr) = some s')
    (hg : data_check_guard buffer_size s'.2) :
    n + 1 ≤ buffer_size / 16 := by
  obtain ⟨_, hinv', hfs, hcfs, hg0⟩ :=
    data_check_loop_steps n 0 (datasize, fr) s' hinv hreach
  have hg' := (data_check_guard_iff hinv'.1).1 hg
  simp only at hfs hcfs
  by_cases h0 : n = 0
  · subst h0; omega
  · have hgs := (data_check_guard_iff hinv.1).1 (hg0 (by omega))
    simp only at hgs
    omega

/-- C20: for every input whose size fields are clear of `2^64`, `data_check_flv` terminates:
the loop run with fuel `buffer_size / 16 + 1` (at most `buffer_size / 16` bodies and one
last test of the loop condition) returns the result of the call; every accepted record
moves `calculated_file_size` at least 16 forward, and when the loop condition holds after
`n` accepted records then `n + 1 ≤ buffer_size / 16`. -/
theorem data_check_flv_terminates (datasize : Nat) (buffer : List Nat)
    (buffer_size : Nat) (fr : file_recovery_t) (hfit : SizesFit buffer_size fr) :
    (∃ out, data_check_loop (buffer_size / 16 + 1) datasize buffer buffer_size fr = .ok out ∧
        data_check_flv datasize buffer buffer_size fr = .ok out) ∧
      ∀ (n : Nat) (s' : Nat × file_recovery_t),
        data_check_steps buffer buffer_size n (datasize, fr) = some s' →
        fr.calculated_file_size + 16 * n ≤ s'.2.calculated_file_size ∧
          (data_check_guard buffer_size s'.2 → n + 1 ≤ buffer_size / 16) := by
  have hinv := LoopInv_of_SizesFit hfit
  constructor
  · obtain ⟨out, hout⟩ := data_check_loop_total buffer buffer_size (buffer_size / 16 + 1)
      datasize fr hinv (by omega) (by
        intro hg
        have hg2 := (data_check_guard_iff hinv.1).1 hg
        omega)
    refine ⟨out, hout, ?_⟩
    have e : buffer_size + 1 = (buffer_size / 16 + 1) + (buffer_size - buffer_size / 16) := by
      omega
    unfold data_check_flv
    rw [e]
    exact data_check_loop_fuel_mono _ _ (datasize, fr) out hinv hout
  · intro n s' hreach
    obtain ⟨_, _, _, hcfs, _⟩ := data_check_loop_steps n 0 (datasize, fr) s' hinv hreach
    exact ⟨hcfs, fun hg => data_check_steps_bound hinv hreach hg⟩

/-- C20 on the spec scenario window (`buffer_size / 16 = 17`). -/
theorem data_check_flv_terminates_witness :
    (∃ out, data_check_loop (280 / 16 + 1) 0 scenarioWindow 280 (ctx0 9) = .ok out ∧
        data_check_flv 0 scenarioWindow 280 (ctx0 9) = .ok out) ∧
      ∀ (n : Nat) (s' : Nat × file_recovery_t),
        data_check_steps scenarioWindow 280 n (0, ctx0 9) = some s' →
        (ctx0 9).calculated_file_size + 16 * n ≤ s'.2.calculated_file_size ∧
          (data_check_guard 280 s'.2 → n + 1 ≤ 280 / 16) :=
  data_check_flv_terminates 0 scenarioWindow 280 (ctx0 9) (by decide)

/-! ## What the resume scanner accepts (C17) -/

/-- Value of the zero-byte test when the three bytes are inside the buffer. -/
theorem resume_zeros_ok {buffer : List Nat} {buffer_size i : Nat}
    (hi : i + 2 < buffer_size) (hbs : buffer_size ≤ U32) :
    resume_zeros buffer buffer_size i =
      .ok (decide (byteAt buffer i = 0 ∧ byteAt buffer (i + 1) = 0 ∧
        byteAt buffer (i + 2) = 0)) := by
  have hU : buffer_size ≤ 4294967296 := hbs
  have e1 : (i + 1) % U32 = i + 1 := Nat.mod_eq_of_lt (by unfold U32; omega)
  have e2 : (i + 2) % U32 = i + 2 := Nat.mod_eq_of_lt (by unfold U32; omega)
  have r0 : rd buffer buffer_size i = .ok (byteAt buffer i) := rd_ok (by omega)
  have r1 : rd buffer buffer_size (i + 1) = .ok (byteAt buffer (i + 1)) := rd_ok (by omega)
  have r2 : rd buffer buffer_size (i + 2) = .ok (byteAt buffer (i + 2)) := rd_ok (by omega)
  simp only [resume_zeros, e1, e2, r0, r1, r2, Res.ok_bind, Res.pure_eq]
  by_cases c0 : byteAt buffer i = 0
  · by_cases c1 : byteAt buffer (i + 1) = 0
    · simp [c0, c1]
    · simp [c0, c1]
  · simp [c0]

/-- The decoded timestamp as a sum of its four bytes. -/
theorem timestampAt_val (buffer : List Nat) (t : Nat) :
    timestampAt buffer t =
      byteAt buffer (t + 11) * 16777216 + byteAt buffer (t + 8) * 65536 +
        byteAt buffer (t + 9) * 256 + byteAt buffer (t + 10) := by
  have he := byteAt_lt buffer (t + 11)
  have h0 := byteAt_lt buffer (t + 8)
  have h1 := byteAt_lt buffer (t + 9)
  have h2 := byteAt_lt buffer (t + 10)
  unfold timestampAt
  rw [or_bytes4 _ _ _ _ h0 h1 h2]
  unfold U32
  omega

/-- Value of the candidate test when every byte it may read is inside the buffer. The
matched zero bytes at `i` and `i+1` are `timestamp[2]` and `timestamp_ext` of the tag at
`i-10`, so an accepted timestamp is below `2^24` and the 32-bit sum `last + 1800000` cannot
have wrapped. -/
theorem resume_candidate_ok {buffer : List Nat} {buffer_size i : Nat} {fr : file_recovery_t}
    (h10 : 10 ≤ i) (hi : i + 2 < buffer_size) (hbs : buffer_size ≤ U32) :
    resume_candidate buffer buffer_size fr i = .ok (decide (resumeAccept buffer fr i)) := by
  have hU : buffer_size ≤ 4294967296 := hbs
  have et : (i + (U32 - 10)) % U32 = i - 10 := by unfold U32; omega
  have r4 : rd buffer buffer_size (i - 10 + 4) = .ok (byteAt buffer (i - 10 + 4)) :=
    rd_ok (by omega)
  have rp : rd_be32 buffer buffer_size (i - 10) = .ok (be32At buffer (i - 10)) :=
    rd_be32_ok (by omega)
  have rl : rd_u24 buffer buffer_size (i - 10 + 5) = .ok (u24At buffer (i - 10 + 5)) :=
    rd_u24_ok (by omega)
  have rt : rd_timestamp buffer buffer_size (i - 10) = .ok (timestampAt buffer (i - 10)) :=
    rd_timestamp_ok (by omega)
  simp only [resume_candidate, resume_zeros_ok hi hbs, et, r4, rp, rl, rt, Res.ok_bind,
    Res.pure_eq]
  unfold resumeAccept
  by_cases cz : byteAt buffer i = 0 ∧ byteAt buffer (i + 1) = 0 ∧ byteAt buffer (i + 2) = 0
  · obtain ⟨z0, z1, z2⟩ := cz
    have hT : timestampAt buffer (i - 10) < 16777216 := by
      have e11 : i - 10 + 11 = i + 1 := by omega
      have e10 : i - 10 + 10 = i := by omega
      have h0 := byteAt_lt buffer (i - 10 + 8)
      have h1 := byteAt_lt buffer (i - 10 + 9)
      rw [timestampAt_val, e11, e10, z0, z1]
      omega
    have hkey : (fr.last_flvpacket_unixtimestamp < timestampAt buffer (i - 10) ∧
          timestampAt buffer (i - 10) ≤ (fr.last_flvpacket_unixtimestamp + 1800000) % TS) ↔
        (fr.last_flvpacket_unixtimestamp < timestampAt buffer (i - 10) ∧
          timestampAt buffer (i - 10) ≤ fr.last_flvpacket_unixtimestamp + 1800000) := by
      unfold TS U32
      omega
    by_cases c1 : byteAt buffer (i - 10 + 4) &&& 0xc0 = 0
    · by_cases c2 : be32At buffer (i - 10) = 0
      · simp [z0, z1, z2, c1, c2]
      · by_cases c3 : u24At buffer (i - 10 + 5) = 0
        · simp [z0, z1, z2, c1, c2, c3]
        · simp only [z0, z1, z2, c1, c2, c3, ne_eq, not_false_eq_true, true_and, and_self,
            decide_True, if_true, gt_iff_lt]
          exact congrArg Res.ok (decide_eq_decide.2 hkey)
    · simp [z0, z1, z2, c1]
  · have : ¬ (byteAt buffer i = 0 ∧ byteAt buffer (i + 1) = 0 ∧ byteAt buffer (i + 2) = 0 ∧
        byteAt buffer (i - 10 + 4) &&& 0xc0 = 0 ∧ be32At buffer (i - 10) ≠ 0 ∧
        u24At buffer (i - 10 + 5) ≠ 0 ∧
        fr.last_flvpacket_unixtimestamp < timestampAt buffer (i - 10) ∧
        timestampAt buffer (i - 10) ≤ fr.last_flvpacket_unixtimestamp + 1800000) :=
      fun h => cz ⟨h.1, h.2.1, h.2.2.1⟩
    simp [cz, this]

/-- The scan from index `i` on a buffer whose size is congruent to 1 modulo 3: it returns
DC_CONTINUE or DC_ERROR, and DC_CONTINUE exactly when some later scan index is accepted. -/
theorem resume_check_loop_iff {buffer : List Nat} {buffer_size : Nat} {fr : file_recovery_t}
    (hbs : buffer_size < U32) (hmod : buffer_size % 3 = 1) :
    ∀ (f i : Nat), 10 ≤ i → i % 3 = 1 → buffer_size ≤ i + 3 * f →
      (resume_check_loop (f + 1) i buffer buffer_size fr = .ok .DC_CONTINUE ∨
        resume_check_loop (f + 1) i buffer buffer_size fr = .ok .DC_ERROR) ∧
      (resume_check_loop (f + 1) i buffer buffer_size fr = .ok .DC_CONTINUE ↔
        ∃ j, i ≤ j ∧ j % 3 = 1 ∧ j < buffer_size ∧ resumeAccept buffer fr j) := by
  have hU : buffer_size < 4294967296 := hbs
  intro f
  induction f with
  | zero =>
    intro i h10 hi hf
    have hnot : ¬ i < buffer_size := by omega
    have hrun : resume_check_loop (0 + 1) i buffer buffer_size fr = .ok .DC_ERROR := by
      simp [resume_check_loop, hnot]
    rw [hrun]
    refine ⟨Or.inr rfl, ⟨(fun h => by cases h), ?_⟩⟩
    rintro ⟨j, hj, _, hjb, _⟩
    omega
  | succ f ih =>
    intro i h10 hi hf
    by_cases hlt : i < buffer_size
    · have hi2 : i + 2 < buffer_size := by omega
      have hc : resume_candidate buffer buffer_size fr i =
          .ok (decide (resumeAccept buffer fr i)) :=
        resume_candidate_ok h10 hi2 (Nat.le_of_lt hbs)
      have e3 : (i + 3) % U32 = i + 3 := Nat.mod_eq_of_lt (by unfold U32; omega)
      by_cases hacc : resumeAccept buffer fr i
      · have hrun : resume_check_loop (f + 1 + 1) i buffer buffer_size fr =
            .ok .DC_CONTINUE := by
          simp [resume_check_loop, hlt, hc, hacc]
        rw [hrun]
        exact ⟨Or.inl rfl, ⟨fun _ => ⟨i, Nat.le_refl _, hi, hlt, hacc⟩, fun _ => rfl⟩⟩
      · have hrun : resume_check_loop (f + 1 + 1) i buffer buffer_size fr =
            resume_check_loop (f + 1) (i + 3) buffer buffer_size fr := by
          rw [resume_check_loop, if_pos hlt, hc]
          simp [hacc, e3]
        rw [hrun]
        obtain ⟨hres, hiff⟩ := ih (i + 3) (by omega) (by omega) (by omega)
        refine ⟨hres, hiff.trans ⟨?_, ?_⟩⟩
        · rintro ⟨j, hj, hj3, hjb, hja⟩
          exact ⟨j, by omega, hj3, hjb, hja⟩
        · rintro ⟨j, hj, hj3, hjb, hja⟩
          have hne : j ≠ i := fun h => hacc (h ▸ hja)
          exact ⟨j, by omega, hj3, hjb, hja⟩
    · have hrun : resume_check_loop (f + 1 + 1) i buffer buffer_size fr = .ok .DC_ERROR := by
        simp [resume_check_loop, hlt]
      rw [hrun]
      refine ⟨Or.inr rfl, ⟨(fun h => by cases h), ?_⟩⟩
      rintro ⟨j, hj, _, hjb, _⟩
      omega

/-- C17: for every buffer whose size fits `unsigned int` and keeps the scanner's reads in
range (`buffer_size ≤ 10` or `buffer_size % 3 = 1`), `resume_check_flv` returns
DC_CONTINUE if and only if some index `i` in 10, 13, 16, ... below `buffer_size` satisfies
`resumeAccept` (zero bytes at `i..i+2`; tag at `i-10` with info top bits zero, nonzero
back-reference, nonzero payload length, timestamp in `(last, last + 1800000]`); otherwise it
returns DC_ERROR, always so when `buffer_size ≤ 10`. -/
theorem resume_check_flv_accept_iff (buffer : List Nat) (buffer_size : Nat)
    (fr : file_recovery_t) (hbs : buffer_size < U32)
    (hlen : buffer_size ≤ 10 ∨ buffer_size % 3 = 1) :
    (resume_check_flv buffer buffer_size fr = .ok .DC_CONTINUE ↔
        ∃ i, 10 ≤ i ∧ i % 3 = 1 ∧ i < buffer_size ∧ resumeAccept buffer fr i) ∧
      ((¬ ∃ i, 10 ≤ i ∧ i % 3 = 1 ∧ i < buffer_size ∧ resumeAccept buffer fr i) →
        resume_check_flv buffer buffer_size fr = .ok .DC_ERROR) ∧
      (buffer_size ≤ 10 → resume_check_flv buffer buffer_size fr = .ok .DC_ERROR) := by
  have hsmall : buffer_size ≤ 10 → resume_check_flv buffer buffer_size fr = .ok .DC_ERROR := by
    intro h
    have hnot : ¬ 10 < buffer_size := by omega
    simp [resume_check_flv, resume_check_loop, hnot]
  by_cases h10 : buffer_size ≤ 10
  · have hrun := hsmall h10
    refine ⟨?_, fun _ => hrun, hsmall⟩
    rw [hrun]
    refine ⟨(fun h => by cases h), ?_⟩
    rintro ⟨j, hj, _, hjb, _⟩
    omega
  · have hmod : buffer_size % 3 = 1 := by
      rcases hlen with h | h
      · exact absurd h h10
      · exact h
    have hloop := @resume_check_loop_iff buffer buffer_size fr hbs hmod buffer_size 10
      (Nat.le_refl _) (by decide) (by omega)
    obtain ⟨hres, hiff⟩ := hloop
    refine ⟨hiff, ?_, hsmall⟩
    intro hno
    rcases hres with h | h
    · exact absurd (hiff.1 h) hno
    · exact h

/-- C17 on a 13-byte buffer whose candidate at index 10 is accepted. -/
theorem resume_check_flv_accept_iff_witness :
    resume_check_flv resumeHit 13 (ctx0 9) = .ok .DC_CONTINUE ∧
      ∃ i, 10 ≤ i ∧ i % 3 = 1 ∧ i < 13 ∧ resumeAccept resumeHit (ctx0 9) i :=
  ⟨by decide, (resume_check_flv_accept_iff resumeHit 13 (ctx0 9) (by decide)
    (by decide)).1.1 (by decide)⟩

/-! ## Consumed records seen from the result of the call (C16, C19) -/

/-- The final iteration leaves the last timestamp as it is. -/
theorem data_check_final_last (buffer : List Nat) (buffer_size : Nat)
    (s : Nat × file_recovery_t) :
    (data_check_final buffer buffer_size s).2.2.last_flvpacket_unixtimestamp =
      s.2.last_flvpacket_unixtimestamp := by
  unfold data_check_final
  split
  · split <;> rfl
  · rfl

/-- When the record accepted last is the `(n+1)`-th, the call returns the final iteration
at the state after it. -/
theorem data_check_flv_last_step {buffer : List Nat} {buffer_size n datasize : Nat}
    {fr : file_recovery_t} {s2 : Nat × file_recovery_t} (hfit : SizesFit buffer_size fr)
    (hn : n < buffer_size)
    (hreach : data_check_steps buffer buffer_size (n + 1) (datasize, fr) = some s2)
    (hlast : data_check_steps buffer buffer_size (n + 2) (datasize, fr) = none) :
    data_check_flv datasize buffer buffer_size fr =
      .ok (data_check_final buffer buffer_size s2) := by
  have hinv := LoopInv_of_SizesFit hfit
  obtain ⟨hrun, hinv2, _⟩ :=
    data_check_loop_steps (n + 1) (buffer_size - n - 1 + 1) (datasize, fr) s2 hinv hreach
  have hnone : data_check_step buffer buffer_size s2 = none := by
    cases h : data_check_step buffer buffer_size s2 with
    | none => rfl
    | some t =>
      have h2 := data_check_steps_snoc (n + 1) _ _ _ hreach h
      rw [h2] at hlast
      cases hlast
  rw [data_check_loop_final (buffer_size - n - 1) hinv2 hnone] at hrun
  have e : buffer_size + 1 = buffer_size - n - 1 + 1 + (n + 1) := by omega
  unfold data_check_flv
  rw [e]
  exact hrun

/-- C16 (amended): when `data_check_flv` is called with `calculated_file_size = H ≥ 9` (size
fields clear of `2^64`), the loop condition holds and the record at that offset has
back-reference 0, info top bits zero, nonzero payload length `L` and zero stream id, then:
if `H < buffer_size/2`, the back-reference check passes whatever the remembered `datasize`
and the record is consumed, that is, the call returns a result whose
`calculated_file_size` is at least `H + 15 + L` (so no DC_ERROR at this record, which would
leave the size at `H`); if `H ≥ buffer_size/2` (and the remembered `datasize` is a 24-bit
payload length), the call returns DC_ERROR with the context unchanged. -/
theorem data_check_flv_first_record_consumed (datasize : Nat) (buffer : List Nat)
    (buffer_size H : Nat) (fr : file_recovery_t) (hfit : SizesFit buffer_size fr)
    (hcfs : fr.calculated_file_size = H) (_hH : 9 ≤ H)
    (hg : data_check_guard buffer_size fr)
    (hprev : be32At buffer (data_check_index buffer_size fr) = 0)
    (hinfo : byteAt buffer (data_check_index buffer_size fr + 4) &&& 0xc0 = 0)
    (hlen : u24At buffer (data_check_index buffer_size fr + 5) ≠ 0)
    (hs0 : byteAt buffer (data_check_index buffer_size fr + 12) = 0)
    (hs1 : byteAt buffer (data_check_index buffer_size fr + 13) = 0)
    (hs2 : byteAt buffer (data_check_index buffer_size fr + 14) = 0) :
    (H < buffer_size / 2 →
        backrefOk buffer buffer_size datasize fr (data_check_index buffer_size fr) ∧
        ∃ r ds fr', data_check_flv datasize buffer buffer_size fr = .ok (r, ds, fr') ∧
          H + 15 + u24At buffer (data_check_index buffer_size fr + 5) ≤
            fr'.calculated_file_size) ∧
      (buffer_size / 2 ≤ H → datasize < 2 ^ 24 →
        data_check_flv datasize buffer buffer_size fr = .ok (.DC_ERROR, datasize, fr)) := by
  have hinv := LoopInv_of_SizesFit hfit
  constructor
  · intro hlt
    have hback : backrefOk buffer buffer_size datasize fr (data_check_index buffer_size fr) :=
      Or.inl ⟨hprev, by rw [hcfs]; exact hlt⟩
    have hstop : stopAt buffer (data_check_index buffer_size fr)
        (u24At buffer (data_check_index buffer_size fr + 5)) = false := by
      simp [stopAt, hinfo, hlen, hs0, hs1, hs2]
    have hstep : data_check_step buffer buffer_size (datasize, fr) =
        some (u24At buffer (data_check_index buffer_size fr + 5),
          { fr with
            last_flvpacket_unixtimestamp :=
              timestampAt buffer (data_check_index buffer_size fr) % TS
            calculated_file_size :=
              (fr.calculated_file_size +
                (4 + 11 + u24At buffer (data_check_index buffer_size fr + 5)) % U32) % U64 }) := by
      unfold data_check_step
      rw [if_pos ⟨hg, hback, hstop⟩]
    obtain ⟨_, _, hc1, _, _, hinv1⟩ := data_check_step_spec (s := (datasize, fr)) hinv hstep
    obtain ⟨out, hout⟩ := data_check_flv_total datasize buffer buffer_size fr hfit
    obtain ⟨m, sm, _, hreach, hnone, hfinal⟩ :=
      data_check_loop_result (buffer_size + 1) (datasize, fr) out hinv hout
    refine ⟨hback, out.1, out.2.1, out.2.2, hout, ?_⟩
    cases m with
    | zero =>
      simp only [data_check_steps, Option.some.injEq] at hreach
      subst hreach
      rw [hstep] at hnone
      cases hnone
    | succ m =>
      simp only [data_check_steps, hstep, Option.some_bind] at hreach
      obtain ⟨_, hinvm, _, hcm, _⟩ := data_check_loop_steps m 0 _ sm hinv1 hreach
      have hle : sm.2.calculated_file_size ≤
          (data_check_final buffer buffer_size sm).2.2.calculated_file_size :=
        data_check_final_cfs hinvm
      rw [hfinal]
      simp only at hc1 hcm
      omega
  · intro hge hds
    have hback : ¬ backrefOk buffer buffer_size datasize fr
        (data_check_index buffer_size fr) := by
      unfold backrefOk
      rintro (⟨_, hlt⟩ | h1)
      · omega
      · rw [hprev] at h1
        unfold U32 at h1
        omega
    unfold data_check_flv
    rw [data_check_loop_succ _ _ _ _ _
      (fun g => Nat.le_of_lt (data_check_index_bound hinv.1 g)), if_pos hg, if_neg hback]

/-- The amended C16 on both sides of `buffer_size/2`: header length 9 in a 280-byte first
window (the size moves to at least 9 + 15 + 100), and header length 40 in the second window
of a scan with 32-byte blocks (DC_ERROR at 40). -/
theorem data_check_flv_first_record_consumed_witness :
    (∃ r ds fr', data_check_flv 0 scenarioWindow 280 (ctx0 9) = .ok (r, ds, fr') ∧
        9 + 15 + 100 ≤ fr'.calculated_file_size) ∧
      data_check_flv 0 longHeaderWindow 64 { ctx0 40 with file_size := 32 } =
        .ok (.DC_ERROR, 0, { ctx0 40 with file_size := 32 }) := by
  constructor
  · obtain ⟨_, r, ds, fr', hrun, hsize⟩ :=
      (data_check_flv_first_record_consumed 0 scenarioWindow 280 9 (ctx0 9) (by decide) rfl
        (by decide) (by decide) (by decide) (by decide) (by decide) (by decide) (by decide)
        (by decide)).1 (by decide)
    have hL : u24At scenarioWindow (data_check_index 280 (ctx0 9) + 5) = 100 := by decide
    rw [hL] at hsize
    exact ⟨r, ds, fr', hrun, hsize⟩
  · exact (data_check_flv_first_record_consumed 0 longHeaderWindow 64 40
      { ctx0 40 with file_size := 32 } (by decide) rfl (by decide) (by decide) (by decide)
      (by decide) (by decide) (by decide) (by decide) (by decide)).2 (by decide) (by decide)

/-- C19: in every call of `data_check_flv` (size fields clear of `2^64`), when the loop,
after accepting `n ≥ 0` records, examines a record that passes the back-reference check and
is well formed (info top bits zero, payload length nonzero, stream id zero), the record is
accepted and the context after it has the last timestamp
`timestamp_ext * 2^24 + timestamp[0] * 2^16 + timestamp[1] * 2^8 + timestamp[2]`
(bytes 11, 8, 9, 10 of the tag), a value below `2^32`, for every value of the extension
byte (the field is taken 32 bits wide, see `TS`); and when no further record is accepted in
the call, the call returns a result whose context carries exactly that last timestamp. -/
theorem data_check_flv_timestamp_stored (datasize : Nat) (buffer : List Nat)
    (buffer_size : Nat) (fr : file_recovery_t) (n : Nat) (s' : Nat × file_recovery_t)
    (hfit : SizesFit buffer_size fr)
    (hreach : data_check_steps buffer buffer_size n (datasize, fr) = some s')
    (hg : data_check_guard buffer_size s'.2)
    (hback : backrefOk buffer buffer_size s'.1 s'.2 (data_check_index buffer_size s'.2))
    (hinfo : byteAt buffer (data_check_index buffer_size s'.2 + 4) &&& 0xc0 = 0)
    (hlen : u24At buffer (data_check_index buffer_size s'.2 + 5) ≠ 0)
    (hs0 : byteAt buffer (data_check_index buffer_size s'.2 + 12) = 0)
    (hs1 : byteAt buffer (data_check_index buffer_size s'.2 + 13) = 0)
    (hs2 : byteAt buffer (data_check_index buffer_size s'.2 + 14) = 0) :
    (∃ s'' : Nat × file_recovery_t,
        data_check_steps buffer buffer_size (n + 1) (datasize, fr) = some s'' ∧
        s''.2.last_flvpacket_unixtimestamp =
          byteAt buffer (data_check_index buffer_size s'.2 + 11) * 2 ^ 24 +
            byteAt buffer (data_check_index buffer_size s'.2 + 8) * 2 ^ 16 +
            byteAt buffer (data_check_index buffer_size s'.2 + 9) * 2 ^ 8 +
            byteAt buffer (data_check_index buffer_size s'.2 + 10)) ∧
      byteAt buffer (data_check_index buffer_size s'.2 + 11) * 2 ^ 24 +
          byteAt buffer (data_check_index buffer_size s'.2 + 8) * 2 ^ 16 +
          byteAt buffer (data_check_index buffer_size s'.2 + 9) * 2 ^ 8 +
          byteAt buffer (data_check_index buffer_size s'.2 + 10) < 2 ^ 32 ∧
      (data_check_steps buffer buffer_size (n + 2) (datasize, fr) = none →
        ∃ r ds fr', data_check_flv datasize buffer buffer_size fr = .ok (r, ds, fr') ∧
          fr'.last_flvpacket_unixtimestamp =
            byteAt buffer (data_check_index buffer_size s'.2 + 11) * 2 ^ 24 +
              byteAt buffer (data_check_index buffer_size s'.2 + 8) * 2 ^ 16 +
              byteAt buffer (data_check_index buffer_size s'.2 + 9) * 2 ^ 8 +
              byteAt buffer (data_check_index buffer_size s'.2 + 10)) := by
  have hinv := LoopInv_of_SizesFit hfit
  have hstop : stopAt buffer (data_check_index buffer_size s'.2)
      (u24At buffer (data_check_index buffer_size s'.2 + 5)) = false := by
    simp [stopAt, hinfo, hlen, hs0, hs1, hs2]
  have hstep : data_check_step buffer buffer_size s' =
      some (u24At buffer (data_check_index buffer_size s'.2 + 5),
        { s'.2 with
          last_flvpacket_unixtimestamp :=
            timestampAt buffer (data_check_index buffer_size s'.2) % TS
          calculated_file_size :=
            (s'.2.calculated_file_size +
              (4 + 11 + u24At buffer (data_check_index buffer_size s'.2 + 5)) % U32) % U64 }) := by
    unfold data_check_step
    rw [if_pos ⟨hg, hback, hstop⟩]
  have hreach' := data_check_steps_snoc n _ _ _ hreach hstep
  have hn := data_check_steps_bound hinv hreach hg
  have hts := timestampAt_eq buffer (data_check_index buffer_size s'.2)
  have he := byteAt_lt buffer (data_check_index buffer_size s'.2 + 11)
  have h0 := byteAt_lt buffer (data_check_index buffer_size s'.2 + 8)
  have h1 := byteAt_lt buffer (data_check_index buffer_size s'.2 + 9)
  have h2 := byteAt_lt buffer (data_check_index buffer_size s'.2 + 10)
  have hval : timestampAt buffer (data_check_index buffer_size s'.2) % TS =
      byteAt buffer (data_check_index buffer_size s'.2 + 11) * 2 ^ 24 +
        byteAt buffer (data_check_index buffer_size s'.2 + 8) * 2 ^ 16 +
        byteAt buffer (data_check_index buffer_size s'.2 + 9) * 2 ^ 8 +
        byteAt buffer (data_check_index buffer_size s'.2 + 10) := by
    rw [hts]; omega
  have hnb : n < buffer_size := by omega
  have hlt32 : byteAt buffer (data_check_index buffer_size s'.2 + 11) * 2 ^ 24 +
      byteAt buffer (data_check_index buffer_size s'.2 + 8) * 2 ^ 16 +
      byteAt buffer (data_check_index buffer_size s'.2 + 9) * 2 ^ 8 +
      byteAt buffer (data_check_index buffer_size s'.2 + 10) < 2 ^ 32 := by omega
  obtain ⟨s2, hreach2, hval2⟩ : ∃ s2 : Nat × file_recovery_t,
      data_check_steps buffer buffer_size (n + 1) (datasize, fr) = some s2 ∧
      s2.2.last_flvpacket_unixtimestamp =
        byteAt buffer (data_check_index buffer_size s'.2 + 11) * 2 ^ 24 +
          byteAt buffer (data_check_index buffer_size s'.2 + 8) * 2 ^ 16 +
          byteAt buffer (data_check_index buffer_size s'.2 + 9) * 2 ^ 8 +
          byteAt buffer (data_check_index buffer_size s'.2 + 10) := ⟨_, hreach', hval⟩
  refine ⟨⟨s2, hreach2, hval2⟩, hlt32, ?_⟩
  intro hlast
  have hfinal := data_check_flv_last_step hfit hnb hreach2 hlast
  exact ⟨(data_check_final buffer buffer_size s2).1,
    (data_check_final buffer buffer_size s2).2.1,
    (data_check_final buffer buffer_size s2).2.2, hfinal,
    by rw [data_check_final_last]; exact hval2⟩

/-- C19 on a record with extension byte 0xFE and timestamp bytes 0x12, 0x34, 0x56, entered
with last timestamp 7: the call (DC_STOP at the terminator that follows) returns a context
whose last timestamp is 254 * 2^24 + 18 * 2^16 + 52 * 2^8 + 86. -/
theorem data_check_flv_timestamp_stored_witness :
    byteAt extWindow (data_check_index 120 { ctx0 9 with last_flvpacket_unixtimestamp := 7 }
        + 11) = 254 ∧
      ∃ r ds fr', data_check_flv 0 extWindow 120
          { ctx0 9 with last_flvpacket_unixtimestamp := 7 } = .ok (r, ds, fr') ∧
        fr'.last_flvpacket_unixtimestamp = 254 * 2 ^ 24 + 18 * 2 ^ 16 + 52 * 2 ^ 8 + 86 := by
  refine ⟨by decide, ?_⟩
  obtain ⟨r, ds, fr', hrun, hts⟩ :=
    (data_check_flv_timestamp_stored 0 extWindow 120
      { ctx0 9 with last_flvpacket_unixtimestamp := 7 } 0
      (0, { ctx0 9 with last_flvpacket_unixtimestamp := 7 })
      (by decide) (by decide) (by decide) (by decide) (by decide) (by decide) (by decide)
      (by decide) (by decide)).2.2 (by decide)
  refine ⟨r, ds, fr', hrun, ?_⟩
  rw [hts]
  decide

end FLV
